import Mathlib

/-!
Shallow embedding of the SPI stack subsystem of brickd's `red_stack.c`
(RED Brick SPI stack support): the Pearson-8 checksum, the 84-byte SPI
frame codec, the transceiver `red_stack_spi_transceive_message`, the
discovery procedure `red_stack_spi_create_routing_table`, the UID lookup
`red_stack_spi_get_slave_for_uid`, the dispatcher
`red_stack_dispatch_to_spi` and one tick of the polling thread
`red_stack_spi_thread`.

Bytes are modelled as `Nat` (values < 256 wherever the C code stores them
in `uint8_t`); byte buffers are `List Nat`.  Packets are their raw byte
strings (the C `Packet` is an 80-byte struct).  The SPI transport and the
slave's answer are an explicit environment value (`SpiIn`): whether the
`ioctl` full-duplex transfer returns the full 84 bytes, and the 84 RX
bytes it produced.
-/

namespace RedStack

/-- The canonical Pearson permutation table, embedded verbatim from
`_red_stack_spi_pearson_permutation` in red_stack.c. -/
def pearsonPermutation : List Nat := [
  1, 87, 49, 12, 176, 178, 102, 166, 121, 193, 6, 84, 249, 230, 44, 163,
  14, 197, 213, 181, 161, 85, 218, 80, 64, 239, 24, 226, 236, 142, 38, 200,
  110, 177, 104, 103, 141, 253, 255, 50, 77, 101, 81, 18, 45, 96, 31, 222,
  25, 107, 190, 70, 86, 237, 240, 34, 72, 242, 20, 214, 244, 227, 149, 235,
  97, 234, 57, 22, 60, 250, 82, 175, 208, 5, 127, 199, 111, 62, 135, 248,
  174, 169, 211, 58, 66, 154, 106, 195, 245, 171, 17, 187, 182, 179, 0, 243,
  132, 56, 148, 75, 128, 133, 158, 100, 130, 126, 91, 13, 153, 246, 216, 219,
  119, 68, 223, 78, 83, 88, 201, 99, 122, 11, 92, 32, 136, 114, 52, 10,
  138, 30, 48, 183, 156, 35, 61, 26, 143, 74, 251, 94, 129, 162, 63, 152,
  170, 7, 115, 167, 241, 206, 3, 150, 55, 59, 151, 220, 90, 53, 23, 131,
  125, 173, 15, 238, 79, 95, 89, 16, 105, 137, 225, 224, 217, 160, 37, 123,
  118, 73, 2, 157, 46, 116, 9, 145, 134, 228, 207, 212, 202, 215, 69, 229,
  27, 188, 67, 124, 168, 252, 42, 4, 29, 108, 21, 247, 19, 205, 39, 203,
  233, 40, 186, 147, 198, 192, 155, 33, 164, 191, 98, 204, 165, 180, 117, 76,
  140, 36, 210, 172, 41, 54, 159, 8, 185, 232, 113, 196, 231, 47, 146, 120,
  51, 65, 28, 144, 254, 221, 93, 189, 194, 139, 112, 43, 71, 109, 184, 209]

/-- One step of the Pearson hash: `cur = permutation[cur ^ next]`
(macro `PEARSON` in red_stack.c).  `next` is truncated to a byte as the
C `uint8_t` store does; `cur` is a table entry and hence already < 256. -/
def pearsonStep (cur next : Nat) : Nat :=
  pearsonPermutation.getD (Nat.xor cur (next % 256)) 0

/-- `red_stack_spi_calculate_pearson_hash(data, length)`: fold of
`pearsonStep` over the first `length` bytes, checksum initialised to 0. -/
def red_stack_spi_calculate_pearson_hash (data : List Nat) (length : Nat) : Nat :=
  (data.take length).foldl pearsonStep 0

/-- Pearson hash of a whole byte list. -/
def pearsonHash (data : List Nat) : Nat :=
  data.foldl pearsonStep 0

-- Constants from red_stack.c
def RED_STACK_SPI_PACKET_SIZE : Nat := 84
def RED_STACK_SPI_PACKET_EMPTY_SIZE : Nat := 4
def RED_STACK_SPI_PREAMBLE_VALUE : Nat := 0xAA
def RED_STACK_SPI_MAX_SLAVES : Nat := 8
def RED_STACK_SPI_ROUTING_TRIES : Nat := 10

-- Transceive result bits, exactly as in red_stack.c
def RED_STACK_TRANSCEIVE_DATA_SEND : Nat := 256       -- (1 << 8)
def RED_STACK_TRANSCEIVE_DATA_RECEIVED : Nat := 128   -- (1 << 7)
def RED_STACK_TRANSCEIVE_RESULT_SEND_ERROR : Nat := 1
def RED_STACK_TRANSCEIVE_RESULT_SEND_BUSY : Nat := 2
def RED_STACK_TRANSCEIVE_RESULT_SEND_NONE : Nat := 3
def RED_STACK_TRANSCEIVE_RESULT_SEND_OK : Nat := 4
def RED_STACK_TRANSCEIVE_RESULT_READ_ERROR : Nat := 8   -- (1 << 3)
def RED_STACK_TRANSCEIVE_RESULT_READ_NONE : Nat := 16   -- (2 << 3)
def RED_STACK_TRANSCEIVE_RESULT_READ_OK : Nat := 24     -- (3 << 3)

/-- Modelled from the spec: `sizeof(Packet)` of daemonlib/packet.h, which is
not under src/.  The spec fixes the payload budget: an 8-byte header plus up
to 72 payload bytes, 80 bytes in total ("request's declared length exceeds
the payload budget (80 bytes)"). -/
def sizeofPacket : Nat := 80

/-- Modelled from the spec: `sizeof(PacketHeader)` of daemonlib/packet.h
("a complete higher-level packet beginning with its own 8-byte header"). -/
def sizeofPacketHeader : Nat := 8

/-- Modelled from the spec: `PACKET_STACK_ENUMERATE_MAX_UIDS` ("ordered set
of up to N=16 32-bit UIDs"). -/
def PACKET_STACK_ENUMERATE_MAX_UIDS : Nat := 16

/-- Byte 4 of a packet is `header.length` (after uid:u32-le at bytes 0..3). -/
def headerLength (p : List Nat) : Nat := p.getD 4 0

/-- Bytes 0..3 of a packet are `header.uid`, little endian. -/
def headerUid (p : List Nat) : Nat :=
  p.getD 0 0 + 256 * p.getD 1 0 + 65536 * p.getD 2 0 + 16777216 * p.getD 3 0

/-- Per-slot slave status (`REDStackSlaveStatus`). -/
inductive SlaveStatus : Type
  | absent
  | available
  | availableBusy
deriving DecidableEq, Repr

/-- `REDStackSlave`: status, the 16-entry UID array and `uids_num`. -/
structure Slave : Type where
  status : SlaveStatus
  uids : List Nat
  uids_num : Nat
deriving DecidableEq, Repr

/-- Slave state produced by `red_stack_init_spi` (lines 559-567): ABSENT,
all 16 UID entries zero, `uids_num = 0`. -/
def initialSlave : Slave :=
  { status := SlaveStatus.absent, uids := List.replicate 16 0, uids_num := 0 }

/-- What the environment supplies to one SPI exchange: whether the `ioctl`
transferred the full 84 bytes, and the received bytes. -/
structure SpiIn : Type where
  ioctlOk : Bool
  rx : List Nat
deriving DecidableEq, Repr

/-- Result of `red_stack_spi_transceive_message`: the C return value
(bitfield), the slave's status after the call, the TX frame as driven onto
the bus (`none` when the function returned before asserting chip select),
and the bytes of `*packet_recv` after the call. -/
structure TransceiveResult : Type where
  retval : Nat
  status : SlaveStatus
  tx : Option (List Nat)
  recv : List Nat
deriving DecidableEq, Repr

/-- Assembly of the TX frame (lines 235-273 of red_stack.c): a zeroed
84-byte buffer with preamble 0xAA, length byte `payload.length + 4`, the
payload at offset 2, the info byte at `length-2` and the Pearson hash of
the first `length-1` bytes at `length-1`. -/
def mkTxFrame (payload : List Nat) (info : Nat) : List Nat :=
  (0xAA : Nat) :: (payload.length + 4) :: (payload ++ [info]) ++
    [pearsonHash ((0xAA : Nat) :: (payload.length + 4) :: (payload ++ [info]))] ++
    List.replicate (84 - (payload.length + 4)) 0

/-- Outcome of validating an RX frame (lines 293-342 of red_stack.c). -/
inductive ParseResult : Type
  /-- Preamble byte is 0: slave did not drive the header (line 294). -/
  | empty
  /-- Preamble byte is neither 0 nor 0xAA (line 299). -/
  | badPreamble
  /-- Length byte < 4 + sizeof(PacketHeader) or > 84 (line 310). -/
  | badLength
  /-- Pearson hash of bytes 0..length-2 differs from byte length-1 (line 319). -/
  | badChecksum
  /-- Length byte exactly 4: properly headered empty frame (line 333). -/
  | emptyOk (busy : Bool)
  /-- Payload present: bytes 2..length-3 (line 338). -/
  | ok (payload : List Nat) (busy : Bool)
deriving DecidableEq, Repr

/-- RX validation, following lines 293-342 of red_stack.c.  The `busy`
flag is bit 0 of the info byte at index `length-2`. -/
def parseFrame (rx : List Nat) : ParseResult :=
  if rx.getD 0 0 ≠ RED_STACK_SPI_PREAMBLE_VALUE then
    if rx.getD 0 0 = 0 then ParseResult.empty else ParseResult.badPreamble
  else
    if rx.getD 1 0 < RED_STACK_SPI_PACKET_EMPTY_SIZE + sizeofPacketHeader ∨
        RED_STACK_SPI_PACKET_SIZE < rx.getD 1 0 then ParseResult.badLength
    else if pearsonHash (rx.take (rx.getD 1 0 - 1)) ≠ rx.getD (rx.getD 1 0 - 1) 0 then
      ParseResult.badChecksum
    else if rx.getD 1 0 = RED_STACK_SPI_PACKET_EMPTY_SIZE then
      ParseResult.emptyOk ((rx.getD (rx.getD 1 0 - 2) 0 &&& 1) != 0)
    else
      ParseResult.ok ((rx.drop 2).take (rx.getD 1 0 - 4))
        ((rx.getD (rx.getD 1 0 - 2) 0 &&& 1) != 0)

/-- `memcpy(dst, src, src.length)` on byte lists: the first `src.length`
bytes of `dst` are replaced by `src`, the rest of `dst` is untouched. -/
def overlay (src dst : List Nat) : List Nat :=
  src ++ dst.drop src.length

/-- Status written by lines 327-331: BUSY iff bit 0 of the info byte. -/
def statusFromBusy (busy : Bool) : SlaveStatus :=
  if busy then SlaveStatus.availableBusy else SlaveStatus.available

/-- SPI transfer and RX handling (lines 275-342 of red_stack.c), after the
TX buffer has been assembled: on a short `ioctl` the return value is
overwritten with SEND_ERROR | READ_ERROR; otherwise the RX frame is
validated, the slave status updated on a valid frame, and the payload
copied into `packet_recv` when one is present. -/
def spiExchange (retval0 : Nat) (payload : List Nat) (slave : SlaveStatus)
    (recv0 : List Nat) (io : SpiIn) : TransceiveResult :=
  let tx := mkTxFrame payload 0
  if ¬ io.ioctlOk then
    { retval := RED_STACK_TRANSCEIVE_RESULT_SEND_ERROR |||
        RED_STACK_TRANSCEIVE_RESULT_READ_ERROR,
      status := slave, tx := some tx, recv := recv0 }
  else
    match parseFrame io.rx with
    | ParseResult.empty =>
        { retval := retval0 ||| RED_STACK_TRANSCEIVE_RESULT_READ_NONE,
          status := slave, tx := some tx, recv := recv0 }
    | ParseResult.badPreamble =>
        { retval := retval0 ||| RED_STACK_TRANSCEIVE_RESULT_READ_ERROR,
          status := slave, tx := some tx, recv := recv0 }
    | ParseResult.badLength =>
        { retval := retval0 ||| RED_STACK_TRANSCEIVE_RESULT_READ_ERROR,
          status := slave, tx := some tx, recv := recv0 }
    | ParseResult.badChecksum =>
        { retval := retval0 ||| RED_STACK_TRANSCEIVE_RESULT_READ_ERROR,
          status := slave, tx := some tx, recv := recv0 }
    | ParseResult.emptyOk busy =>
        { retval := retval0 ||| RED_STACK_TRANSCEIVE_RESULT_READ_NONE,
          status := statusFromBusy busy, tx := some tx, recv := recv0 }
    | ParseResult.ok payload busy =>
        { retval := retval0 ||| RED_STACK_TRANSCEIVE_RESULT_READ_OK |||
            RED_STACK_TRANSCEIVE_DATA_RECEIVED,
          status := statusFromBusy busy, tx := some tx,
          recv := overlay payload recv0 }

/-- `red_stack_spi_transceive_message(packet_send, packet_recv, slave)`.
`packet_send = none` requests a poll-only exchange.  `prevRecv` is the
caller's `*packet_recv` before the call; its `header.length` (byte 4) is
first set to 0 (line 240).  The send decision follows lines 245-266: a
poll-only frame when there is no request or the slave is busy; the
request's first `header.length` bytes as payload when the slave is
available and the length is within `sizeof(Packet)`; SEND_ERROR without
touching the bus otherwise. -/
def red_stack_spi_transceive_message (packet_send : Option (List Nat))
    (prevRecv : List Nat) (slave : SlaveStatus) (io : SpiIn) : TransceiveResult :=
  let recv0 := prevRecv.set 4 0
  match packet_send, slave with
  | none, _ =>
      spiExchange RED_STACK_TRANSCEIVE_RESULT_SEND_NONE [] slave recv0 io
  | some _, SlaveStatus.availableBusy =>
      spiExchange RED_STACK_TRANSCEIVE_RESULT_SEND_NONE [] slave recv0 io
  | some p, SlaveStatus.available =>
      if sizeofPacket < headerLength p then
        { retval := RED_STACK_TRANSCEIVE_RESULT_SEND_ERROR,
          status := slave, tx := none, recv := recv0 }
      else
        spiExchange (RED_STACK_TRANSCEIVE_DATA_SEND |||
            RED_STACK_TRANSCEIVE_RESULT_SEND_OK)
          (p.take (headerLength p)) slave recv0 io
  | some _, SlaveStatus.absent =>
      { retval := RED_STACK_TRANSCEIVE_RESULT_SEND_ERROR,
        status := slave, tx := none, recv := recv0 }

/-- Modelled from the spec: `FUNCTION_STACK_ENUMERATE` of stack.h is not
under src/; the spec only says it is "the enumerate function" byte.  Its
value is irrelevant to every claim; 8 is a placeholder. -/
def FUNCTION_STACK_ENUMERATE : Nat := 8

/-- The `StackEnumerateRequest` of lines 363-369: uid 0 (4 bytes), length
`sizeof(StackEnumerateRequest)` = 8, the enumerate function, options 0x08
("response expected"), flags 0; padded to the 80-byte `Packet` object. -/
def stackEnumerateRequest : List Nat :=
  [0, 0, 0, 0, 8, FUNCTION_STACK_ENUMERATE, 8, 0] ++ List.replicate 72 0

/-- `response->uids[i]`: the i-th little-endian u32 of the
`StackEnumerateResponse`, located after the 8-byte packet header. -/
def respUid (buf : List Nat) (i : Nat) : Nat :=
  buf.getD (8 + 4 * i) 0 + 256 * buf.getD (9 + 4 * i) 0 +
    65536 * buf.getD (10 + 4 * i) 0 + 16777216 * buf.getD (11 + 4 * i) 0

/-- Result of the UID copy loop: the slave's UID array, the final loop
index (stored as `uids_num`) and the trace of `stack_add_uid` calls. -/
structure CopyResult : Type where
  uids : List Nat
  num : Nat
  reg : List Nat
deriving DecidableEq, Repr

/-- The UID copy loop of lines 410-422: for `i` from 0, while
`response->uids[i] != 0` and `i < PACKET_STACK_ENUMERATE_MAX_UIDS`, write
`slave->uids[i]` and call `stack_add_uid`.  Returns the updated UID array,
the final `i` (stored as `uids_num`) and the list of UIDs passed to
`stack_add_uid`, in order.  `fuel` counts the remaining loop iterations;
the entry point uses `fuel = 16 - i = 16`, so the loop guard `i < 16` of
the C for-loop is exactly `fuel > 0`. -/
def copyUidsAux (buf : List Nat) : Nat → Nat → List Nat → List Nat → CopyResult
  | 0, i, uids, reg => ⟨uids, i, reg⟩
  | fuel + 1, i, uids, reg =>
      if respUid buf i ≠ 0 then
        copyUidsAux buf fuel (i + 1) (uids.set i (respUid buf i))
          (reg ++ [respUid buf i])
      else
        ⟨uids, i, reg⟩

def copyUids (buf : List Nat) (uids : List Nat) : CopyResult :=
  copyUidsAux buf PACKET_STACK_ENUMERATE_MAX_UIDS 0 uids []

/-- Result of one bounded-retry discovery phase: whether it succeeded, the
slave status and receive buffer after the last attempt, the next
environment index, and the per-call trace of target slave statuses. -/
structure PhaseResult : Type where
  ok : Bool
  status : SlaveStatus
  buf : List Nat
  cnt : Nat
  trace : List SlaveStatus
deriving DecidableEq, Repr

/-- One bounded-retry phase of discovery (lines 375-381 / 392-398): up to
`fuel` transceive attempts with the given request, stopping as soon as the
bit `flag` (DATA_SEND resp. DATA_RECEIVED) is set in the return value.
`cnt` indexes the environment stream of SPI exchanges.  Returns whether
the phase succeeded, the slave status and receive buffer after the last
attempt, the next environment index, and the trace of the slave statuses
passed to each transceive call. -/
def phaseLoop (env : Nat → SpiIn) (request : Option (List Nat)) (flag : Nat) :
    Nat → SlaveStatus → List Nat → Nat → PhaseResult
  | 0, st, buf, cnt => ⟨false, st, buf, cnt, []⟩
  | fuel + 1, st, buf, cnt =>
      let r := red_stack_spi_transceive_message request buf st (env cnt)
      if r.retval &&& flag ≠ 0 then
        ⟨true, r.status, r.recv, cnt + 1, [st]⟩
      else
        let rest := phaseLoop env request flag fuel r.status r.recv (cnt + 1)
        ⟨rest.ok, rest.status, rest.buf, rest.cnt, st :: rest.trace⟩

/-- Result of `red_stack_spi_create_routing_table`: the slave table and
`slave_num`, plus traces: the stack addresses probed (in order), per
probed address whether both phases succeeded, the UIDs registered via
`stack_add_uid` (in order), and the status of the target slave at each
transceive call. -/
structure DiscoveryResult : Type where
  slaves : List Slave
  slave_num : Nat
  probed : List Nat
  outcomes : List Bool
  registered : List Nat
  callStatuses : List SlaveStatus
deriving DecidableEq, Repr

/-- The discovery loop of lines 358-426, one iteration per stack address:
set the slot AVAILABLE, run the send phase with the enumerate request and
then the receive phase with poll-only exchanges (10 tries each); on
failure of either phase mark the slot ABSENT and stop; on success copy the
response UIDs and continue with the next address.  `fuel` counts remaining
iterations; the entry point uses `fuel = 8 - addr = 8`, so the loop guard
`stack_address < RED_STACK_SPI_MAX_SLAVES` is exactly `fuel > 0`.
`slave_num` is the address at which the loop stopped (line 426). -/
def routingLoop (env : Nat → SpiIn) :
    Nat → Nat → List Slave → List Nat → Nat → DiscoveryResult
  | 0, addr, slaves, _, _ =>
      { slaves := slaves, slave_num := addr, probed := [], outcomes := [],
        registered := [], callStatuses := [] }
  | fuel + 1, addr, slaves, buf, cnt =>
      let slave0 := slaves.getD addr initialSlave
      let slaves1 := slaves.set addr { slave0 with status := SlaveStatus.available }
      let send := phaseLoop env (some stackEnumerateRequest)
        RED_STACK_TRANSCEIVE_DATA_SEND RED_STACK_SPI_ROUTING_TRIES
        SlaveStatus.available buf cnt
      if send.ok then
        let recv := phaseLoop env none RED_STACK_TRANSCEIVE_DATA_RECEIVED
          RED_STACK_SPI_ROUTING_TRIES send.status send.buf send.cnt
        if recv.ok then
          let cu := copyUids recv.buf slave0.uids
          let slaves2 := slaves1.set addr
            { status := recv.status, uids := cu.uids, uids_num := cu.num }
          let rest := routingLoop env fuel (addr + 1) slaves2 recv.buf recv.cnt
          { slaves := rest.slaves, slave_num := rest.slave_num,
            probed := addr :: rest.probed, outcomes := true :: rest.outcomes,
            registered := cu.reg ++ rest.registered,
            callStatuses := send.trace ++ recv.trace ++ rest.callStatuses }
        else
          { slaves := slaves1.set addr { slave0 with status := SlaveStatus.absent },
            slave_num := addr, probed := [addr], outcomes := [false],
            registered := [],
            callStatuses := send.trace ++ recv.trace }
      else
        { slaves := slaves1.set addr { slave0 with status := SlaveStatus.absent },
          slave_num := addr, probed := [addr], outcomes := [false],
          registered := [], callStatuses := send.trace }

/-- `red_stack_spi_create_routing_table()`, started on the slave table as
initialised by `red_stack_init_spi` (all slots ABSENT).  `buf0` is the
content of the uninitialised local `Packet packet` buffer. -/
def red_stack_spi_create_routing_table (env : Nat → SpiIn) (buf0 : List Nat) :
    DiscoveryResult :=
  routingLoop env RED_STACK_SPI_MAX_SLAVES 0 (List.replicate 8 initialSlave) buf0 0

/-- The inner UID scan of lines 205-209: does `uid` occur among the first
`uids_num` entries of the slave's UID array? -/
def slaveHasUid (s : Slave) (uid : Nat) : Bool :=
  (s.uids.take s.uids_num).contains uid

/-- The outer slave scan of `red_stack_spi_get_slave_for_uid` (lines
201-213), from index `is` with `fuel` remaining iterations (entry point:
`fuel = slave_num`, `is = 0`, so the guard `is < slave_num` is checked
exactly as in the C for-loop). -/
def findSlaveFrom (slaves : List Slave) (slave_num uid : Nat) :
    Nat → Nat → Option Nat
  | 0, _ => none
  | fuel + 1, is =>
      if is < slave_num then
        if slaveHasUid (slaves.getD is initialSlave) uid then some is
        else findSlaveFrom slaves slave_num uid fuel (is + 1)
      else none

/-- `red_stack_spi_get_slave_for_uid(uid)`: the first slave (in stack
address order, below `slave_num`) whose UID array contains `uid`; the C
function returns a pointer, modelled as the slot index. -/
def red_stack_spi_get_slave_for_uid (slaves : List Slave) (slave_num uid : Nat) :
    Option Nat :=
  findSlaveFrom slaves slave_num uid slave_num 0

/-- An outbound work item (`REDStackPacket`): target slot index and the
copied packet bytes. -/
abbrev WorkItem := Nat × List Nat

/-- `red_stack_dispatch_to_spi(stack, request)` (lines 634-677): uid 0
broadcasts one work item per present slave in slot order; a non-zero uid
resolves through `red_stack_spi_get_slave_for_uid`, an unknown uid is
dropped.  Each push copies the request's first `header.length` bytes. -/
def red_stack_dispatch_to_spi (slaves : List Slave) (slave_num : Nat)
    (queue : List WorkItem) (request : List Nat) : List WorkItem :=
  if headerUid request = 0 then
    queue ++ (List.range slave_num).map
      (fun is => (is, request.take (headerLength request)))
  else
    match red_stack_spi_get_slave_for_uid slaves slave_num (headerUid request) with
    | none => queue
    | some is => queue ++ [(is, request.take (headerLength request))]

/-- State of the polling engine between ticks: slave table, `slave_num`,
the outbound queue, the round-robin cursor `stack_address_cycle` and the
`packet_from_spi` buffer. -/
structure PollState : Type where
  slaves : List Slave
  slave_num : Nat
  queue : List WorkItem
  cursor : Nat
  packet_from_spi : List Nat
deriving DecidableEq, Repr

/-- The slot a tick will exchange with (lines 454-479): the queue head's
slave when a work item is pending, else the round-robin cursor. -/
def tickTarget (s : PollState) : Nat :=
  match s.queue.head? with
  | none => s.cursor
  | some (si, _) => si

/-- One iteration of the polling loop of `red_stack_spi_thread` (lines
453-504): zero `packet_from_spi`, peek the queue; with no work item poll
`slaves[cursor]` and advance the cursor, otherwise send the work item's
packet to its slave without advancing; transceive; pop the queue head
exactly when DATA_SEND is set in the return value.  Returns the new state
and the full transceive result. -/
def red_stack_spi_thread_tick (s : PollState) (io : SpiIn) :
    PollState × TransceiveResult :=
  let pfs := List.replicate 80 0
  let target := tickTarget s
  let request := (s.queue.head?).map (fun q => q.2)
  let cursor' :=
    match s.queue.head? with
    | none => if s.slave_num ≤ s.cursor + 1 then 0 else s.cursor + 1
    | some _ => s.cursor
  let slave := s.slaves.getD target initialSlave
  let r := red_stack_spi_transceive_message request pfs slave.status io
  let slaves' := s.slaves.set target { slave with status := r.status }
  let queue' :=
    if r.retval &&& RED_STACK_TRANSCEIVE_DATA_SEND ≠ 0 then s.queue.tail
    else s.queue
  (⟨slaves', s.slave_num, queue', cursor', r.recv⟩, r)

/-- Iterated ticks with an environment stream (`ios n` feeds tick `n`). -/
def iterateTick (ios : Nat → SpiIn) : Nat → PollState → PollState
  | 0, s => s
  | n + 1, s => (red_stack_spi_thread_tick (iterateTick ios n s) (ios n)).1

/-- The polling-engine state right after discovery (lines 444-452): the
discovered slave table, an empty queue, cursor 0, and the statically
zero-initialised `packet_from_spi`. -/
def initPollState (d : DiscoveryResult) : PollState :=
  { slaves := d.slaves, slave_num := d.slave_num, queue := [], cursor := 0,
    packet_from_spi := List.replicate 80 0 }

/-- States reachable by the polling engine: the initial state after a
discovery that found at least one slave (line 446: with `slave_num = 0`
the thread exits before polling), closed under ticks and under enqueues
from `red_stack_dispatch_to_spi` on the event thread. -/
inductive Reachable : PollState → Prop
  | init (env : Nat → SpiIn) (buf0 : List Nat)
      (h : (red_stack_spi_create_routing_table env buf0).slave_num ≠ 0) :
      Reachable (initPollState (red_stack_spi_create_routing_table env buf0))
  | tick (s : PollState) (io : SpiIn) : Reachable s →
      Reachable (red_stack_spi_thread_tick s io).1
  | dispatch (s : PollState) (request : List Nat) : Reachable s →
      Reachable { s with
        queue := red_stack_dispatch_to_spi s.slaves s.slave_num s.queue request }

-- Concrete inputs used to exercise the theorems below on closed terms.

def zeros80 : List Nat := List.replicate 80 0

def zeros84 : List Nat := List.replicate 84 0

/-- A checksum-valid RX frame with length byte 4 (preamble 0xAA, length 4,
info 0, checksum `pearsonHash [0xAA, 4, 0] = 240`): a properly framed
empty response. -/
def emptyRxFrame : List Nat := [0xAA, 4, 0, 240] ++ List.replicate 80 0

/-- A checksum-valid RX frame with length byte 12, an all-zero 8-byte
payload and info byte 0. -/
def okFrame12 : List Nat :=
  [0xAA, 12, 0, 0, 0, 0, 0, 0, 0, 0, 0, 200] ++ List.replicate 72 0

/-- A checksum-valid RX frame with length byte 12, an all-zero 8-byte
payload and info byte 1 (BUSY). -/
def busyFrame12 : List Nat :=
  [0xAA, 12, 0, 0, 0, 0, 0, 0, 0, 0, 1, 38] ++ List.replicate 72 0

/-- A checksum-valid full-length RX frame whose 80-byte payload is a stack
enumerate response carrying the single UID 1. -/
def uidFrame84 : List Nat :=
  (0xAA : Nat) :: 84 ::
    ((List.replicate 8 0 ++ 1 :: List.replicate 71 0) ++ [0]) ++ [99]

/-- Environment: call 0 answers all zeros (DATA_SEND still set), call 1
answers `okFrame12`, every later transfer fails.  Discovery on it finds
exactly one slave (slot 0, no UIDs). -/
def env0 : Nat → SpiIn := fun n =>
  if n = 0 then ⟨true, zeros84⟩
  else if n = 1 then ⟨true, okFrame12⟩
  else ⟨false, []⟩

/-- Like `env0` but call 1 answers `uidFrame84`: discovery finds slot 0
with the single UID 1. -/
def env1 : Nat → SpiIn := fun n =>
  if n = 0 then ⟨true, zeros84⟩
  else if n = 1 then ⟨true, uidFrame84⟩
  else ⟨false, []⟩

/-- A transport that always works and always answers zeros. -/
def envZeros : Nat → SpiIn := fun _ => ⟨true, zeros84⟩

/-- An 8-byte-long packet (header only) with uid 2. -/
def req2 : List Nat := [2, 0, 0, 0, 8, 0, 0, 0] ++ List.replicate 72 0

/-- An 8-byte-long packet (header only) with uid 0 (broadcast). -/
def req0 : List Nat := [0, 0, 0, 0, 8, 0, 0, 0] ++ List.replicate 72 0

/-- A malformed packet whose declared header length is 81 > sizeof(Packet). -/
def oversizePacket : List Nat := zeros80.set 4 81

/-- A present slave holding the single UID 2. -/
def slaveUid2 : Slave :=
  { status := SlaveStatus.available, uids := (2 : Nat) :: List.replicate 15 0,
    uids_num := 1 }

/-- A slave table with one present slave (slot 0) holding the UID 2. -/
def slavesUid2 : List Slave := slaveUid2 :: List.replicate 7 initialSlave

/-- A present slave, currently BUSY, with no UIDs. -/
def busySlave : Slave :=
  { status := SlaveStatus.availableBusy, uids := List.replicate 16 0,
    uids_num := 0 }

/-- A present AVAILABLE slave with no UIDs. -/
def availSlave : Slave :=
  { status := SlaveStatus.available, uids := List.replicate 16 0,
    uids_num := 0 }

/-- Polling state: one present slave, currently BUSY, with a pending
work item for it. -/
def busyPollState : PollState :=
  { slaves := busySlave :: List.replicate 7 initialSlave,
    slave_num := 1, queue := [(0, req2)], cursor := 0,
    packet_from_spi := zeros80 }

/-- Polling state: one present AVAILABLE slave with an oversize work item
for it at the head of the queue. -/
def oversizePollState : PollState :=
  { slaves := availSlave :: List.replicate 7 initialSlave,
    slave_num := 1, queue := [(0, oversizePacket)], cursor := 0,
    packet_from_spi := zeros80 }

/-!  ## Frame codec lemmas  -/

theorem mkTxFrame_eq (pl : List Nat) (info : Nat) :
    mkTxFrame pl info =
      ((0xAA : Nat) :: (pl.length + 4) :: (pl ++ [info])) ++
        ([pearsonHash ((0xAA : Nat) :: (pl.length + 4) :: (pl ++ [info]))] ++
          List.replicate (84 - (pl.length + 4)) 0) := by
  simp [mkTxFrame]

theorem mkTxFrame_body_length (pl : List Nat) (info : Nat) :
    ((0xAA : Nat) :: (pl.length + 4) :: (pl ++ [info])).length = pl.length + 3 := by
  simp

theorem mkTxFrame_getD_zero (pl : List Nat) (info : Nat) :
    (mkTxFrame pl info).getD 0 0 = 0xAA := rfl

theorem mkTxFrame_getD_one (pl : List Nat) (info : Nat) :
    (mkTxFrame pl info).getD 1 0 = pl.length + 4 := rfl

theorem mkTxFrame_take_body (pl : List Nat) (info : Nat) :
    (mkTxFrame pl info).take (pl.length + 3) =
      (0xAA : Nat) :: (pl.length + 4) :: (pl ++ [info]) := by
  rw [mkTxFrame_eq]
  exact List.take_left' (mkTxFrame_body_length pl info)

theorem mkTxFrame_getD_checksum (pl : List Nat) (info : Nat) :
    (mkTxFrame pl info).getD (pl.length + 3) 0 =
      pearsonHash ((0xAA : Nat) :: (pl.length + 4) :: (pl ++ [info])) := by
  rw [mkTxFrame_eq]
  rw [List.getD_append_right _ _ _ _ (le_of_eq (mkTxFrame_body_length pl info))]
  simp [mkTxFrame_body_length]

theorem mkTxFrame_getD_info (pl : List Nat) (info : Nat) :
    (mkTxFrame pl info).getD (pl.length + 2) 0 = info := by
  rw [mkTxFrame_eq]
  have h : (pl.length + 2) < ((0xAA : Nat) :: (pl.length + 4) :: (pl ++ [info])).length := by
    simp
  rw [List.getD_append _ _ _ _ h]
  show ((pl ++ [info]).getD pl.length 0) = info
  rw [List.getD_append_right _ _ _ _ (le_refl pl.length)]
  simp

theorem mkTxFrame_drop_two (pl : List Nat) (info : Nat) :
    (mkTxFrame pl info).drop 2 =
      (pl ++ [info]) ++
        ([pearsonHash ((0xAA : Nat) :: (pl.length + 4) :: (pl ++ [info]))] ++
          List.replicate (84 - (pl.length + 4)) 0) := by
  rw [mkTxFrame_eq]
  rfl

theorem mkTxFrame_payload (pl : List Nat) (info : Nat) :
    ((mkTxFrame pl info).drop 2).take pl.length = pl := by
  rw [mkTxFrame_drop_two, List.append_assoc]
  exact List.take_left' rfl

theorem mkTxFrame_length (pl : List Nat) (info : Nat) (h : pl.length ≤ 80) :
    (mkTxFrame pl info).length = 84 := by
  rw [mkTxFrame_eq]
  simp
  omega

theorem mkTxFrame_getD_past_end (pl : List Nat) (info : Nat) (j : Nat)
    (h : pl.length + 4 ≤ j) : (mkTxFrame pl info).getD j 0 = 0 := by
  rw [mkTxFrame_eq]
  rw [List.getD_append_right _ _ _ _ (by simp; omega)]
  rw [List.getD_append_right _ _ _ _ (by simp; omega)]
  rw [List.getD_eq_getElem?_getD, List.getElem?_replicate]
  split <;> rfl

/-- The round-trip law on the frame codec, for payloads of at least the
8-byte packet header and at most 80 bytes: validating a built frame
succeeds with the identical payload, and the busy flag is bit 0 of the
frame's info byte. -/
theorem parseFrame_mkTxFrame (pl : List Nat) (info : Nat)
    (h8 : 8 ≤ pl.length) (h80 : pl.length ≤ 80) :
    parseFrame (mkTxFrame pl info) = ParseResult.ok pl ((info &&& 1) != 0) := by
  have e1 : (mkTxFrame pl info).getD 1 0 = pl.length + 4 := mkTxFrame_getD_one pl info
  unfold parseFrame
  rw [mkTxFrame_getD_zero, e1]
  rw [if_neg (by simp [RED_STACK_SPI_PREAMBLE_VALUE])]
  rw [if_neg (by
    simp only [RED_STACK_SPI_PACKET_EMPTY_SIZE, sizeofPacketHeader,
      RED_STACK_SPI_PACKET_SIZE]
    omega)]
  have e2 : pl.length + 4 - 1 = pl.length + 3 := by omega
  have e3 : pl.length + 4 - 2 = pl.length + 2 := by omega
  have e4 : pl.length + 4 - 4 = pl.length := by omega
  rw [e2, mkTxFrame_take_body, mkTxFrame_getD_checksum]
  rw [if_neg (by simp)]
  rw [if_neg (by simp only [RED_STACK_SPI_PACKET_EMPTY_SIZE]; omega)]
  rw [e3, e4, mkTxFrame_getD_info, mkTxFrame_payload]

/-!  ## C1: build/parse round trip  -/

/-- C1, counterexample: the round trip does not return Ok for the empty
(poll-only) payload, nor for a payload shorter than the 8-byte packet
header: both built frames are rejected by the minimum-length check
(length byte < 4 + sizeof(PacketHeader)). -/
theorem claim_C1_counterexample :
    parseFrame (mkTxFrame [] 0) = ParseResult.badLength ∧
    parseFrame (mkTxFrame [1, 2, 3] 0) = ParseResult.badLength := by
  constructor <;> rfl

/-- C1 (amended): for every payload of at least 8 and at most 80 bytes and
every info byte, building a frame and parsing it back yields Ok with the
identical payload and the busy flag taken from bit 0 of the info byte.
The empty (poll-only, length 4) payload and payloads shorter than the
8-byte packet header do not round-trip: their built frames are reported
as a length error. -/
theorem claim_C1 (pl : List Nat) (info : Nat)
    (h8 : 8 ≤ pl.length) (h80 : pl.length ≤ 80) :
    parseFrame (mkTxFrame pl info) = ParseResult.ok pl ((info &&& 1) != 0) :=
  parseFrame_mkTxFrame pl info h8 h80

/-- C1, witness: the round trip at a concrete 8-byte payload with info 1. -/
theorem claim_C1_witness :
    parseFrame (mkTxFrame [9, 8, 7, 6, 5, 4, 3, 2] 1) =
      ParseResult.ok [9, 8, 7, 6, 5, 4, 3, 2] true :=
  claim_C1 [9, 8, 7, 6, 5, 4, 3, 2] 1 (by decide) (by decide)

/-!  ## C2: the properly framed empty response  -/

/-- C2: a received frame with preamble 0xAA, length byte 4 and a correct
Pearson checksum is NOT reported as Ok/READ_NONE: the minimum-length check
(length < 4 + sizeof(PacketHeader) = 12) rejects it as a length error, so
a poll-only transceive on it returns SEND_NONE | READ_ERROR (= 11) and
does not reach the empty-frame branch.  The code contradicts its own
line 333-335 branch (log "Received empty packet over SPI (w/ header)"),
which is unreachable. -/
theorem claim_C2 :
    pearsonHash (emptyRxFrame.take 3) = emptyRxFrame.getD 3 0 ∧
    parseFrame emptyRxFrame = ParseResult.badLength ∧
    (red_stack_spi_transceive_message none zeros80 SlaveStatus.available
        ⟨true, emptyRxFrame⟩).retval =
      (RED_STACK_TRANSCEIVE_RESULT_SEND_NONE |||
        RED_STACK_TRANSCEIVE_RESULT_READ_ERROR) := by
  refine ⟨rfl, rfl, ?_⟩
  decide

/-!  ## Transceiver helper lemmas  -/

/-- Whenever `spiExchange` runs, the frame driven onto the bus is the one
assembled with info byte 0 ("the SPI Master is never busy"). -/
theorem spiExchange_tx (r0 : Nat) (pl : List Nat) (st : SlaveStatus)
    (recv0 : List Nat) (io : SpiIn) :
    (spiExchange r0 pl st recv0 io).tx = some (mkTxFrame pl 0) := by
  simp only [spiExchange]
  split
  · rfl
  · split <;> rfl

/-- Every frame handed to the SPI transfer by the transceiver is either
the poll-only frame or built from the request's first `header.length`
bytes, the latter only when the slave is AVAILABLE and the length is
within the 80-byte budget. -/
theorem transceive_tx_cases (ps : Option (List Nat)) (recv : List Nat)
    (st : SlaveStatus) (io : SpiIn) (f : List Nat)
    (h : (red_stack_spi_transceive_message ps recv st io).tx = some f) :
    f = mkTxFrame [] 0 ∨
      ∃ p, ps = some p ∧ st = SlaveStatus.available ∧
        headerLength p ≤ sizeofPacket ∧
        f = mkTxFrame (p.take (headerLength p)) 0 := by
  rcases ps with _ | p
  · left
    rw [red_stack_spi_transceive_message, spiExchange_tx] at h
    exact (Option.some_inj.mp h).symm
  · rcases st with _ | _ | _
    · rw [red_stack_spi_transceive_message] at h
      simp at h
    · rw [red_stack_spi_transceive_message] at h
      by_cases hl : sizeofPacket < headerLength p
      · rw [if_pos hl] at h
        simp at h
      · rw [if_neg hl, spiExchange_tx] at h
        right
        exact ⟨p, rfl, rfl, le_of_not_lt hl, (Option.some_inj.mp h).symm⟩
    · left
      rw [red_stack_spi_transceive_message, spiExchange_tx] at h
      exact (Option.some_inj.mp h).symm

/-- The DATA_RECEIVED bit is set in `r0 ||| READ_OK ||| DATA_RECEIVED`. -/
theorem lor_read_ok_received_and (r0 : Nat) :
    ((r0 ||| RED_STACK_TRANSCEIVE_RESULT_READ_OK) |||
        RED_STACK_TRANSCEIVE_DATA_RECEIVED) &&&
      RED_STACK_TRANSCEIVE_DATA_RECEIVED ≠ 0 := by
  simp only [RED_STACK_TRANSCEIVE_RESULT_READ_OK, RED_STACK_TRANSCEIVE_DATA_RECEIVED]
  have ht : Nat.testBit ((r0 ||| 24) ||| 128) 7 = true := by
    rw [Nat.testBit_or]
    simp [show Nat.testBit 128 7 = true from by decide]
  have h := Nat.and_two_pow ((r0 ||| 24) ||| 128) 7
  simp only [show (2 : Nat) ^ 7 = 128 from by decide] at h
  rw [h, ht]
  decide

/-- When `spiExchange` reports no DATA_RECEIVED, the receive buffer is
exactly the one it was handed. -/
theorem spiExchange_recv_of_no_data (r0 : Nat) (pl : List Nat)
    (st : SlaveStatus) (recv0 : List Nat) (io : SpiIn)
    (h : (spiExchange r0 pl st recv0 io).retval &&&
      RED_STACK_TRANSCEIVE_DATA_RECEIVED = 0) :
    (spiExchange r0 pl st recv0 io).recv = recv0 := by
  revert h
  simp only [spiExchange]
  split
  · intro _
    rfl
  · split <;> intro h
    · rfl
    · rfl
    · rfl
    · rfl
    · rfl
    · exact absurd h (lor_read_ok_received_and r0)

/-!  ## C10: the receive packet on outcomes without DATA_RECEIVED  -/

/-- C10: the transceiver first zeroes the receive packet's header length
(byte 4) and writes nothing else to it unless the outcome carries
DATA_RECEIVED; on every outcome without DATA_RECEIVED the caller's
receive packet is its old content with byte 4 (header.length) set to 0. -/
theorem claim_C10 (ps : Option (List Nat)) (recv : List Nat)
    (st : SlaveStatus) (io : SpiIn)
    (h : (red_stack_spi_transceive_message ps recv st io).retval &&&
      RED_STACK_TRANSCEIVE_DATA_RECEIVED = 0) :
    (red_stack_spi_transceive_message ps recv st io).recv = recv.set 4 0 := by
  rcases ps with _ | p
  · rw [red_stack_spi_transceive_message] at h ⊢
    exact spiExchange_recv_of_no_data _ _ _ _ _ h
  · rcases st with _ | _ | _
    · rfl
    · rw [red_stack_spi_transceive_message] at h ⊢
      by_cases hl : sizeofPacket < headerLength p
      · rw [if_pos hl]
      · rw [if_neg hl] at h ⊢
        exact spiExchange_recv_of_no_data _ _ _ _ _ h
    · rw [red_stack_spi_transceive_message] at h ⊢
      exact spiExchange_recv_of_no_data _ _ _ _ _ h

/-- C10, witness: a poll-only exchange answered by silence (all zeros)
reports no DATA_RECEIVED and leaves the receive packet all zero with its
length byte zeroed. -/
theorem claim_C10_witness :
    (red_stack_spi_transceive_message none zeros80 SlaveStatus.available
        ⟨true, zeros84⟩).recv = zeros80.set 4 0 :=
  claim_C10 none zeros80 SlaveStatus.available ⟨true, zeros84⟩ (by decide)

/-!  ## C8: well-formedness of every emitted TX frame  -/

/-- Well-formedness bundle for a built frame with payload within the
80-byte budget. -/
theorem mkTxFrame_wellFormed (pl : List Nat) (info : Nat) (h80 : pl.length ≤ 80) :
    (mkTxFrame pl info).length = 84 ∧
    (mkTxFrame pl info).getD 0 0 = 0xAA ∧
    (4 ≤ (mkTxFrame pl info).getD 1 0 ∧ (mkTxFrame pl info).getD 1 0 ≤ 84) ∧
    pearsonHash ((mkTxFrame pl info).take ((mkTxFrame pl info).getD 1 0 - 1)) =
      (mkTxFrame pl info).getD ((mkTxFrame pl info).getD 1 0 - 1) 0 ∧
    ∀ j, (mkTxFrame pl info).getD 1 0 ≤ j → (mkTxFrame pl info).getD j 0 = 0 := by
  have e1 := mkTxFrame_getD_one pl info
  refine ⟨mkTxFrame_length pl info h80, mkTxFrame_getD_zero pl info,
    ⟨by omega, by omega⟩, ?_, ?_⟩
  · rw [e1, show pl.length + 4 - 1 = pl.length + 3 from by omega,
      mkTxFrame_take_body, mkTxFrame_getD_checksum]
  · intro j hj
    rw [e1] at hj
    exact mkTxFrame_getD_past_end pl info j hj

/-- C8: every TX frame the transceiver hands to the SPI transfer (for a
poll-only exchange or a request of declared length at most 80) has
preamble byte 0xAA, a length byte between 4 and 84, the Pearson-8 hash
(canonical table) of bytes 0..length-2 at index length-1, and zeros from
index length to the end of the 84-byte buffer. -/
theorem claim_C8 (ps : Option (List Nat)) (recv : List Nat)
    (st : SlaveStatus) (io : SpiIn) (f : List Nat)
    (h : (red_stack_spi_transceive_message ps recv st io).tx = some f) :
    f.length = 84 ∧
    f.getD 0 0 = 0xAA ∧
    (4 ≤ f.getD 1 0 ∧ f.getD 1 0 ≤ 84) ∧
    pearsonHash (f.take (f.getD 1 0 - 1)) = f.getD (f.getD 1 0 - 1) 0 ∧
    ∀ j, f.getD 1 0 ≤ j → f.getD j 0 = 0 := by
  rcases transceive_tx_cases ps recv st io f h with hf | ⟨p, _, _, hl, hf⟩
  · rw [hf]
    exact mkTxFrame_wellFormed [] 0 (by decide)
  · rw [hf]
    refine mkTxFrame_wellFormed (p.take (headerLength p)) 0 ?_
    have := List.length_take (headerLength p) p
    simp only [sizeofPacket] at hl
    omega

/-- C8, witness: the poll-only frame of a concrete exchange carries its
Pearson checksum at index length-1. -/
theorem claim_C8_witness :
    pearsonHash ((mkTxFrame [] 0).take ((mkTxFrame [] 0).getD 1 0 - 1)) =
      (mkTxFrame [] 0).getD ((mkTxFrame [] 0).getD 1 0 - 1) 0 :=
  (claim_C8 none zeros80 SlaveStatus.available ⟨true, zeros84⟩
    (mkTxFrame [] 0) (by decide)).2.2.2.1

/-!  ## C7: dispatching requests by UID  -/

/-- C7: enqueuing a request with uid 0 appends exactly `slave_num` work
items, one per present slave in slot index order; a non-zero uid resolved
by `red_stack_spi_get_slave_for_uid` appends exactly the one work item for
the resolved slave; an unknown non-zero uid leaves the queue unchanged
(the request is dropped with an error log). -/
theorem claim_C7 (slaves : List Slave) (slave_num : Nat)
    (queue : List WorkItem) (request : List Nat) :
    (headerUid request = 0 →
      (red_stack_dispatch_to_spi slaves slave_num queue request).length =
        queue.length + slave_num ∧
      ∀ k, k < slave_num →
        (red_stack_dispatch_to_spi slaves slave_num queue request).getD
            (queue.length + k) (0, []) =
          (k, request.take (headerLength request))) ∧
    (∀ is, headerUid request ≠ 0 →
      red_stack_spi_get_slave_for_uid slaves slave_num (headerUid request) =
        some is →
      red_stack_dispatch_to_spi slaves slave_num queue request =
        queue ++ [(is, request.take (headerLength request))]) ∧
    (headerUid request ≠ 0 →
      red_stack_spi_get_slave_for_uid slaves slave_num (headerUid request) =
        none →
      red_stack_dispatch_to_spi slaves slave_num queue request = queue) := by
  refine ⟨fun h0 => ?_, fun is hne hsome => ?_, fun hne hnone => ?_⟩
  · rw [red_stack_dispatch_to_spi, if_pos h0]
    constructor
    · simp
    · intro k hk
      rw [List.getD_append_right _ _ _ _ (by omega)]
      rw [List.getD_eq_getElem?_getD, List.getElem?_map,
        show queue.length + k - queue.length = k from by omega,
        List.getElem?_range hk]
      rfl
  · rw [red_stack_dispatch_to_spi, if_neg hne, hsome]
  · rw [red_stack_dispatch_to_spi, if_neg hne, hnone]

/-- C7, witness: on a table whose only present slave (slot 0) holds UID 2,
enqueuing a request with uid 2 appends exactly the one work item for
slot 0. -/
theorem claim_C7_witness :
    red_stack_dispatch_to_spi slavesUid2 1 [] req2 =
      [] ++ [(0, req2.take (headerLength req2))] :=
  (claim_C7 slavesUid2 1 [] req2).2.1 0 (by decide) (by decide)

/-!  ## C3: busy handling  -/

/-- After a completed exchange parsed Ok, the new status is BUSY exactly
when bit 0 of the info byte was set. -/
theorem spiExchange_status_ok (r0 : Nat) (pl : List Nat) (st : SlaveStatus)
    (recv0 : List Nat) (io : SpiIn) (plr : List Nat) (b : Bool)
    (hio : io.ioctlOk = true) (hp : parseFrame io.rx = ParseResult.ok plr b) :
    (spiExchange r0 pl st recv0 io).status = statusFromBusy b := by
  simp only [spiExchange]
  rw [if_neg (by simp [hio]), hp]

/-- On a working transport the return value of `spiExchange` is the send
bits `r0` with one of READ_NONE, READ_ERROR or READ_OK|DATA_RECEIVED
or'd in. -/
theorem spiExchange_retval_ok_cases (r0 : Nat) (pl : List Nat)
    (st : SlaveStatus) (recv0 : List Nat) (io : SpiIn) (hio : io.ioctlOk = true) :
    (spiExchange r0 pl st recv0 io).retval =
        r0 ||| RED_STACK_TRANSCEIVE_RESULT_READ_NONE ∨
    (spiExchange r0 pl st recv0 io).retval =
        r0 ||| RED_STACK_TRANSCEIVE_RESULT_READ_ERROR ∨
    (spiExchange r0 pl st recv0 io).retval =
        r0 ||| RED_STACK_TRANSCEIVE_RESULT_READ_OK |||
          RED_STACK_TRANSCEIVE_DATA_RECEIVED := by
  simp only [spiExchange]
  rw [if_neg (by simp [hio])]
  split
  · exact Or.inl rfl
  · exact Or.inr (Or.inl rfl)
  · exact Or.inr (Or.inl rfl)
  · exact Or.inr (Or.inl rfl)
  · exact Or.inl rfl
  · exact Or.inr (Or.inr rfl)

/-- On a short transfer the return value is overwritten with
SEND_ERROR | READ_ERROR. -/
theorem spiExchange_retval_fail (r0 : Nat) (pl : List Nat)
    (st : SlaveStatus) (recv0 : List Nat) (io : SpiIn) (hio : io.ioctlOk = false) :
    (spiExchange r0 pl st recv0 io).retval =
      RED_STACK_TRANSCEIVE_RESULT_SEND_ERROR |||
        RED_STACK_TRANSCEIVE_RESULT_READ_ERROR := by
  simp only [spiExchange]
  rw [if_pos (by simp [hio])]

/-- Retval facts for a poll-only (SEND_NONE) exchange: DATA_SEND is never
set, and on a working transport the SEND field reads SEND_NONE. -/
theorem spiExchange_sendNone_retval (pl : List Nat) (st : SlaveStatus)
    (recv0 : List Nat) (io : SpiIn) :
    (spiExchange RED_STACK_TRANSCEIVE_RESULT_SEND_NONE pl st recv0 io).retval &&&
      RED_STACK_TRANSCEIVE_DATA_SEND = 0 ∧
    (io.ioctlOk = true →
      (spiExchange RED_STACK_TRANSCEIVE_RESULT_SEND_NONE pl st recv0 io).retval &&&
        7 = RED_STACK_TRANSCEIVE_RESULT_SEND_NONE) := by
  constructor
  · cases hio : io.ioctlOk
    · rw [spiExchange_retval_fail _ _ _ _ _ hio]
      decide
    · rcases spiExchange_retval_ok_cases _ pl st recv0 io hio with h | h | h <;>
        rw [h] <;> decide
  · intro hio
    rcases spiExchange_retval_ok_cases _ pl st recv0 io hio with h | h | h <;>
      rw [h] <;> decide

/-- C3: (a) whenever an exchange takes place (the transceiver reached the
SPI transfer) on a working transport and the received frame validates Ok
with busy bit set, the slave's status becomes AVAILABLE_BUSY; (b) a tick
whose pending work item targets a BUSY slave emits the poll-only frame
(length 4, no payload), never sets DATA_SEND — so the work item is not
popped — and on a working transport reports SEND_NONE. -/
theorem claim_C3 :
    (∀ (ps : Option (List Nat)) (recv : List Nat) (st : SlaveStatus)
        (io : SpiIn) (pl : List Nat),
      (red_stack_spi_transceive_message ps recv st io).tx ≠ none →
      io.ioctlOk = true →
      parseFrame io.rx = ParseResult.ok pl true →
      (red_stack_spi_transceive_message ps recv st io).status =
        SlaveStatus.availableBusy) ∧
    (∀ (s : PollState) (io : SpiIn) (si : Nat) (p : List Nat),
      s.queue.head? = some (si, p) →
      (s.slaves.getD si initialSlave).status = SlaveStatus.availableBusy →
      (red_stack_spi_thread_tick s io).2.tx = some (mkTxFrame [] 0) ∧
      (red_stack_spi_thread_tick s io).2.retval &&&
        RED_STACK_TRANSCEIVE_DATA_SEND = 0 ∧
      (red_stack_spi_thread_tick s io).1.queue = s.queue ∧
      (io.ioctlOk = true →
        (red_stack_spi_thread_tick s io).2.retval &&& 7 =
          RED_STACK_TRANSCEIVE_RESULT_SEND_NONE)) := by
  constructor
  · intro ps recv st io pl htx hio hp
    rcases ps with _ | p
    · rw [red_stack_spi_transceive_message]
      exact spiExchange_status_ok _ _ _ _ _ _ _ hio hp
    · rcases st with _ | _ | _
      · exact absurd rfl htx
      · rw [red_stack_spi_transceive_message] at htx ⊢
        by_cases hl : sizeofPacket < headerLength p
        · rw [if_pos hl] at htx
          exact absurd rfl htx
        · rw [if_neg hl] at htx ⊢
          exact spiExchange_status_ok _ _ _ _ _ _ _ hio hp
      · rw [red_stack_spi_transceive_message]
        exact spiExchange_status_ok _ _ _ _ _ _ _ hio hp
  · intro s io si p hh hst
    have hr : (red_stack_spi_thread_tick s io).2 =
        spiExchange RED_STACK_TRANSCEIVE_RESULT_SEND_NONE []
          SlaveStatus.availableBusy ((List.replicate 80 0).set 4 0) io := by
      simp only [red_stack_spi_thread_tick, tickTarget, hh, Option.map_some']
      rw [hst]
      try rfl
    have hq : (red_stack_spi_thread_tick s io).1.queue =
        (if (red_stack_spi_thread_tick s io).2.retval &&&
          RED_STACK_TRANSCEIVE_DATA_SEND ≠ 0 then s.queue.tail else s.queue) := by
      simp only [red_stack_spi_thread_tick, tickTarget, hh, Option.map_some']
    have hfacts := spiExchange_sendNone_retval ([] : List Nat)
      SlaveStatus.availableBusy ((List.replicate 80 0).set 4 0) io
    refine ⟨?_, ?_, ?_, ?_⟩
    · rw [hr]
      exact spiExchange_tx _ _ _ _ _
    · rw [hr]
      exact hfacts.1
    · rw [hq, if_neg (by rw [hr]; simpa using hfacts.1)]
    · intro hio
      rw [hr]
      exact hfacts.2 hio

/-- C3, witness: a poll-only exchange on a working transport answered with
a busy-flagged Ok frame turns the slave BUSY; and a tick on a concrete
state whose work item targets the BUSY slave emits the poll-only frame and
keeps the queue. -/
theorem claim_C3_witness :
    (red_stack_spi_transceive_message none zeros80 SlaveStatus.available
        ⟨true, busyFrame12⟩).status = SlaveStatus.availableBusy ∧
    (red_stack_spi_thread_tick busyPollState ⟨true, zeros84⟩).1.queue =
      busyPollState.queue :=
  ⟨claim_C3.1 none zeros80 SlaveStatus.available ⟨true, busyFrame12⟩
      (List.replicate 8 0) (by decide) rfl (by decide),
    (claim_C3.2 busyPollState ⟨true, zeros84⟩ 0 req2 rfl (by decide)).2.2.1⟩

/-!  ## C4: oversize requests  -/

theorem getD_set_self_of_lt {α : Type} (l : List α) (i : Nat) (a d : α)
    (h : i < l.length) : (l.set i a).getD i d = a := by
  rw [List.getD_eq_getElem?_getD, List.getElem?_set_self h]
  rfl

theorem lt_length_of_status_ne_absent (slaves : List Slave) (si : Nat)
    (h : (slaves.getD si initialSlave).status ≠ SlaveStatus.absent) :
    si < slaves.length := by
  by_contra hc
  rw [List.getD_eq_getElem?_getD, List.getElem?_eq_none (le_of_not_lt hc)] at h
  exact h rfl

/-- One tick on a state whose queue head is an oversize request for an
AVAILABLE slave: the transceiver reports SEND_ERROR before touching the
bus, the work item stays at the head of the queue, and nothing else about
the slave's status or the cursor changes. -/
theorem tick_oversize_step (t : PollState) (io : SpiIn) (si : Nat) (p : List Nat)
    (hh : t.queue.head? = some (si, p))
    (hst : (t.slaves.getD si initialSlave).status = SlaveStatus.available)
    (hlen : sizeofPacket < headerLength p) :
    (red_stack_spi_thread_tick t io).1.queue = t.queue ∧
    ((red_stack_spi_thread_tick t io).1.slaves.getD si initialSlave).status =
      SlaveStatus.available ∧
    (red_stack_spi_thread_tick t io).2.retval =
      RED_STACK_TRANSCEIVE_RESULT_SEND_ERROR ∧
    (red_stack_spi_thread_tick t io).2.tx = none := by
  have hsi : si < t.slaves.length :=
    lt_length_of_status_ne_absent t.slaves si (by rw [hst]; intro h; cases h)
  have hstep : red_stack_spi_thread_tick t io =
      (⟨t.slaves.set si
          { t.slaves.getD si initialSlave with status := SlaveStatus.available },
        t.slave_num, t.queue, t.cursor, (List.replicate 80 0).set 4 0⟩,
        { retval := RED_STACK_TRANSCEIVE_RESULT_SEND_ERROR,
          status := SlaveStatus.available, tx := none,
          recv := (List.replicate 80 0).set 4 0 }) := by
    simp only [red_stack_spi_thread_tick, tickTarget, hh, Option.map_some']
    rw [hst]
    simp only [red_stack_spi_transceive_message]
    simp only [if_pos hlen]
    rw [if_neg (by decide)]
  rw [hstep]
  refine ⟨rfl, ?_, rfl, rfl⟩
  have : si < (t.slaves.set si
      { t.slaves.getD si initialSlave with
        status := SlaveStatus.available }).length := by
    simpa using hsi
  rw [getD_set_self_of_lt _ _ _ _ (by simpa using hsi)]

/-- C4, counterexample: on a concrete state whose queue head is a request
with declared length 81 for the present AVAILABLE slave 0, the tick
reports SEND_ERROR but the work item is NOT dropped: it is still at the
head of the queue after one and after two ticks, so it is retried. -/
theorem claim_C4_counterexample :
    (red_stack_spi_thread_tick oversizePollState ⟨true, zeros84⟩).2.retval =
      RED_STACK_TRANSCEIVE_RESULT_SEND_ERROR ∧
    (red_stack_spi_thread_tick oversizePollState ⟨true, zeros84⟩).1.queue =
      [(0, oversizePacket)] ∧
    (iterateTick envZeros 2 oversizePollState).queue = [(0, oversizePacket)] := by
  refine ⟨by decide, by decide, by decide⟩

/-- C4 (amended): a queued request whose declared header length exceeds
the 80-byte budget makes the transceiver report SEND_ERROR (with an error
log) without asserting chip select; since DATA_SEND is not set the polling
engine does NOT pop the work item, so the same item stays at the head of
the queue and is retried with the same SEND_ERROR outcome on every
subsequent tick (it is never dropped). -/
theorem claim_C4 (s : PollState) (ios : Nat → SpiIn) (si : Nat) (p : List Nat)
    (hh : s.queue.head? = some (si, p))
    (hst : (s.slaves.getD si initialSlave).status = SlaveStatus.available)
    (hlen : sizeofPacket < headerLength p) :
    ∀ n, (iterateTick ios n s).queue = s.queue ∧
      (red_stack_spi_thread_tick (iterateTick ios n s) (ios n)).2.retval =
        RED_STACK_TRANSCEIVE_RESULT_SEND_ERROR ∧
      (red_stack_spi_thread_tick (iterateTick ios n s) (ios n)).2.tx = none := by
  have inv : ∀ n, (iterateTick ios n s).queue = s.queue ∧
      ((iterateTick ios n s).slaves.getD si initialSlave).status =
        SlaveStatus.available := by
    intro n
    induction n with
    | zero => exact ⟨rfl, hst⟩
    | succ k ih =>
        have hh' : (iterateTick ios k s).queue.head? = some (si, p) := by
          rw [ih.1, hh]
        have step := tick_oversize_step (iterateTick ios k s) (ios k) si p hh' ih.2 hlen
        exact ⟨by rw [show iterateTick ios (k + 1) s =
            (red_stack_spi_thread_tick (iterateTick ios k s) (ios k)).1 from rfl,
          step.1, ih.1], by
          rw [show iterateTick ios (k + 1) s =
            (red_stack_spi_thread_tick (iterateTick ios k s) (ios k)).1 from rfl]
          exact step.2.1⟩
  intro n
  have hh' : (iterateTick ios n s).queue.head? = some (si, p) := by
    rw [(inv n).1, hh]
  have step := tick_oversize_step (iterateTick ios n s) (ios n) si p hh' (inv n).2 hlen
  exact ⟨(inv n).1, step.2.2.1, step.2.2.2⟩

/-- C4, witness: after three ticks on the concrete oversize state the
work item is still queued and the fourth tick still reports SEND_ERROR. -/
theorem claim_C4_witness :
    (iterateTick envZeros 3 oversizePollState).queue = oversizePollState.queue ∧
    (red_stack_spi_thread_tick (iterateTick envZeros 3 oversizePollState)
        (envZeros 3)).2.retval = RED_STACK_TRANSCEIVE_RESULT_SEND_ERROR ∧
    (red_stack_spi_thread_tick (iterateTick envZeros 3 oversizePollState)
        (envZeros 3)).2.tx = none :=
  claim_C4 oversizePollState envZeros 0 oversizePacket rfl (by decide) (by decide) 3

/-!  ## Discovery lemmas  -/

/-- A transceive call leaves the slave status unchanged or sets it to
AVAILABLE or AVAILABLE_BUSY (lines 327-331 are the only writes). -/
theorem spiExchange_status_cases (r0 : Nat) (pl : List Nat) (st : SlaveStatus)
    (recv0 : List Nat) (io : SpiIn) :
    (spiExchange r0 pl st recv0 io).status = st ∨
    (spiExchange r0 pl st recv0 io).status = SlaveStatus.available ∨
    (spiExchange r0 pl st recv0 io).status = SlaveStatus.availableBusy := by
  simp only [spiExchange]
  split
  · exact Or.inl rfl
  · split
    · exact Or.inl rfl
    · exact Or.inl rfl
    · exact Or.inl rfl
    · exact Or.inl rfl
    · rename_i b _
      cases b
      · exact Or.inr (Or.inl rfl)
      · exact Or.inr (Or.inr rfl)
    · rename_i b _
      cases b
      · exact Or.inr (Or.inl rfl)
      · exact Or.inr (Or.inr rfl)

theorem transceive_status_cases (ps : Option (List Nat)) (recv : List Nat)
    (st : SlaveStatus) (io : SpiIn) :
    (red_stack_spi_transceive_message ps recv st io).status = st ∨
    (red_stack_spi_transceive_message ps recv st io).status = SlaveStatus.available ∨
    (red_stack_spi_transceive_message ps recv st io).status =
      SlaveStatus.availableBusy := by
  rcases ps with _ | p
  · exact spiExchange_status_cases _ _ _ _ _
  · rcases st with _ | _ | _
    · exact Or.inl rfl
    · rw [red_stack_spi_transceive_message]
      by_cases hl : sizeofPacket < headerLength p
      · rw [if_pos hl]
        exact Or.inl rfl
      · rw [if_neg hl]
        exact spiExchange_status_cases _ _ _ _ _
    · exact spiExchange_status_cases _ _ _ _ _

theorem transceive_status_ne_absent (ps : Option (List Nat)) (recv : List Nat)
    (st : SlaveStatus) (io : SpiIn) (h : st ≠ SlaveStatus.absent) :
    (red_stack_spi_transceive_message ps recv st io).status ≠
      SlaveStatus.absent := by
  rcases transceive_status_cases ps recv st io with hc | hc | hc <;> rw [hc]
  · exact h
  · intro hx
    cases hx
  · intro hx
    cases hx

/-- A discovery phase started on a non-ABSENT slave keeps its status
non-ABSENT and only ever calls the transceiver with a non-ABSENT status. -/
theorem phaseLoop_ne_absent (env : Nat → SpiIn) (request : Option (List Nat))
    (flag : Nat) :
    ∀ (fuel : Nat) (st : SlaveStatus) (buf : List Nat) (cnt : Nat),
      st ≠ SlaveStatus.absent →
      (phaseLoop env request flag fuel st buf cnt).status ≠ SlaveStatus.absent ∧
      ∀ x ∈ (phaseLoop env request flag fuel st buf cnt).trace,
        x ≠ SlaveStatus.absent := by
  intro fuel
  induction fuel with
  | zero =>
      intro st buf cnt h
      exact ⟨h, by intro x hx; cases hx⟩
  | succ k ih =>
      intro st buf cnt h
      have hr := transceive_status_ne_absent request buf st (env cnt) h
      simp only [phaseLoop]
      split
      · refine ⟨hr, ?_⟩
        intro x hx
        rcases List.mem_singleton.mp hx with rfl
        exact h
      · have hrest := ih (red_stack_spi_transceive_message request buf st
          (env cnt)).status
          (red_stack_spi_transceive_message request buf st (env cnt)).recv
          (cnt + 1) hr
        refine ⟨hrest.1, ?_⟩
        intro x hx
        rcases List.mem_cons.mp hx with rfl | hx
        · exact h
        · exact hrest.2 x hx

theorem take_set_self {α : Type} (l : List α) (i : Nat) (a : α)
    (h : i < l.length) : (l.set i a).take i = l.take i := by
  rw [List.set_eq_take_append_cons_drop, if_pos h]
  exact List.take_left' (by rw [List.length_take]; omega)

theorem set_take_succ {α : Type} (l : List α) (i : Nat) (a : α)
    (h : i < l.length) : (l.set i a).take (i + 1) = l.take i ++ [a] := by
  rw [List.take_succ, take_set_self l i a h, List.getElem?_set_self h]
  rfl

theorem drop_of_take_succ {α : Type} (l r : List α) (d : α)
    (ht : l.take (r.length + 1) = r ++ [d]) :
    l.drop r.length = d :: l.drop (r.length + 1) := by
  conv_lhs => rw [← List.take_append_drop (r.length + 1) l, ht]
  rw [List.append_assoc, List.drop_left' rfl]
  rfl

/-- Invariants of the UID copy loop: the final index (`uids_num`) stays
within 16, every UID appended to the registration trace is non-zero, the
registration trace grows by exactly the entries written into the UID
array, and the first `uids_num` entries of the array are the previously
present prefix followed by the newly registered UIDs. -/
theorem copyUidsAux_spec (buf : List Nat) :
    ∀ (fuel i : Nat) (uids reg : List Nat), i + fuel = 16 → uids.length = 16 →
      i ≤ (copyUidsAux buf fuel i uids reg).num ∧
      (copyUidsAux buf fuel i uids reg).num ≤ 16 ∧
      (copyUidsAux buf fuel i uids reg).uids.length = 16 ∧
      (∀ u ∈ (copyUidsAux buf fuel i uids reg).reg, u ∈ reg ∨ u ≠ 0) ∧
      reg.length ≤ (copyUidsAux buf fuel i uids reg).reg.length ∧
      (copyUidsAux buf fuel i uids reg).reg.take reg.length = reg ∧
      (copyUidsAux buf fuel i uids reg).uids.take (copyUidsAux buf fuel i uids reg).num =
        uids.take i ++ (copyUidsAux buf fuel i uids reg).reg.drop reg.length := by
  intro fuel
  induction fuel with
  | zero =>
      intro i uids reg hi hlen
      simp only [copyUidsAux]
      exact ⟨le_refl i, by omega, hlen, fun u hu => Or.inl hu, le_refl _,
        List.take_length reg, by rw [List.drop_length, List.append_nil]⟩
  | succ k ih =>
      intro i uids reg hi hlen
      have hil : i < uids.length := by omega
      simp only [copyUidsAux]
      split
      · rename_i hv
        have hrec := ih (i + 1) (uids.set i (respUid buf i))
          (reg ++ [respUid buf i]) (by omega) (by simp [hlen])
        obtain ⟨h1, h2, h3, h4, h5, h6, h7⟩ := hrec
        refine ⟨by omega, h2, h3, ?_, ?_, ?_, ?_⟩
        · intro u hu
          rcases h4 u hu with hm | hne
          · rcases List.mem_append.mp hm with hm | hm
            · exact Or.inl hm
            · rcases List.mem_singleton.mp hm with rfl
              exact Or.inr hv
          · exact Or.inr hne
        · simp at h5
          omega
        · have := List.take_take reg.length (reg.length + 1)
            (copyUidsAux buf k (i + 1) (uids.set i (respUid buf i))
              (reg ++ [respUid buf i])).reg
          rw [show reg.length ⊓ (reg.length + 1) = reg.length from by omega] at this
          rw [← this]
          have h6' := h6
          rw [show (reg ++ [respUid buf i]).length = reg.length + 1 from by simp] at h6'
          rw [h6']
          exact List.take_left reg [respUid buf i]
        · rw [h7, set_take_succ uids i (respUid buf i) hil]
          have h6' := h6
          rw [show (reg ++ [respUid buf i]).length = reg.length + 1 from by simp] at h6'
          rw [drop_of_take_succ _ reg (respUid buf i) h6']
          simp
      · exact ⟨le_refl i, show i ≤ 16 by omega, hlen, fun u hu => Or.inl hu,
          le_refl _, List.take_length reg,
          show uids.take i = uids.take i ++ reg.drop reg.length by
            rw [List.drop_length, List.append_nil]⟩

theorem getD_set_ne' {α : Type} (l : List α) (i j : Nat) (a d : α) (h : i ≠ j) :
    (l.set i a).getD j d = l.getD j d := by
  rw [List.getD_eq_getElem?_getD, List.getElem?_set_ne h, ← List.getD_eq_getElem?_getD]

theorem status_ne_absent_cases (st : SlaveStatus) (h : st ≠ SlaveStatus.absent) :
    st = SlaveStatus.available ∨ st = SlaveStatus.availableBusy := by
  cases st
  · exact absurd rfl h
  · exact Or.inl rfl
  · exact Or.inr rfl

theorem copyUids_spec (buf uids : List Nat) (hlen : uids.length = 16) :
    (copyUids buf uids).num ≤ 16 ∧
    (copyUids buf uids).uids.length = 16 ∧
    (∀ u ∈ (copyUids buf uids).reg, u ≠ 0) ∧
    (copyUids buf uids).uids.take (copyUids buf uids).num =
      (copyUids buf uids).reg := by
  obtain ⟨h1, h2, h3, h4, h5, h6, h7⟩ := copyUidsAux_spec buf 16 0 uids [] rfl hlen
  refine ⟨h2, h3, ?_, ?_⟩
  · intro u hu
    rcases h4 u hu with hm | hne
    · exact absurd hm (List.not_mem_nil u)
    · exact hne
  · simpa using h7

/-- Post-condition of the discovery loop entered at slot `addr` on the
table `slaves`: the final `slave_num` is between `addr` and 8, slots below
`addr` are untouched, processed slots below `slave_num` are AVAILABLE or
BUSY with at most 16 UIDs each, slots from `slave_num` on are ABSENT,
exactly the slots up to and including the first failing one were probed
(all outcomes true except a final false when some slot failed), every
transceive call saw a non-ABSENT slave, and the registered UIDs are
exactly the non-zero UID prefixes of the processed slots, in slot order. -/
def RoutingPost (addr : Nat) (slaves : List Slave) (d : DiscoveryResult) : Prop :=
  (addr ≤ d.slave_num ∧ d.slave_num ≤ 8) ∧
  d.slaves.length = 8 ∧
  (∀ i, i < addr → d.slaves.getD i initialSlave = slaves.getD i initialSlave) ∧
  (∀ i, addr ≤ i → i < d.slave_num →
    ((d.slaves.getD i initialSlave).status = SlaveStatus.available ∨
     (d.slaves.getD i initialSlave).status = SlaveStatus.availableBusy)) ∧
  (∀ i, d.slave_num ≤ i → i < 8 →
    (d.slaves.getD i initialSlave).status = SlaveStatus.absent) ∧
  d.probed = List.range' addr (min (d.slave_num + 1) 8 - addr) ∧
  d.outcomes = List.replicate (d.slave_num - addr) true ++
    (if d.slave_num < 8 then [false] else []) ∧
  (∀ x ∈ d.callStatuses, x ≠ SlaveStatus.absent) ∧
  (∀ u ∈ d.registered, u ≠ 0) ∧
  (∀ i, addr ≤ i → i < d.slave_num →
    (d.slaves.getD i initialSlave).uids_num ≤ 16 ∧
    (d.slaves.getD i initialSlave).uids.length = 16) ∧
  d.registered = ((List.range' addr (d.slave_num - addr)).map
    (fun i => (d.slaves.getD i initialSlave).uids.take
      (d.slaves.getD i initialSlave).uids_num)).flatten

theorem routingFail_post (addr : Nat) (slaves : List Slave)
    (trace : List SlaveStatus) (haddr : addr < 8) (hlen : slaves.length = 8)
    (hinit : ∀ i, addr ≤ i → i < 8 → slaves.getD i initialSlave = initialSlave)
    (htrace : ∀ x ∈ trace, x ≠ SlaveStatus.absent) :
    RoutingPost addr slaves
      { slaves := (slaves.set addr
            { slaves.getD addr initialSlave with status := SlaveStatus.available }).set addr
            { slaves.getD addr initialSlave with status := SlaveStatus.absent },
        slave_num := addr, probed := [addr], outcomes := [false],
        registered := [], callStatuses := trace } := by
  rw [RoutingPost]
  rw [List.set_set]
  dsimp only
  have hal : addr < slaves.length := by omega
  refine ⟨⟨le_refl addr, by omega⟩, by simp [hlen], ?_, ?_, ?_, ?_, ?_, htrace, ?_, ?_, ?_⟩
  · intro i hi
    exact getD_set_ne' slaves addr i _ initialSlave (by omega)
  · intro i h1 h2
    exact ((lt_irrefl addr (h1.trans_lt h2)).elim)
  · intro i h1 h2
    rcases Nat.eq_or_lt_of_le h1 with rfl | hlt
    · rw [getD_set_self_of_lt slaves addr _ initialSlave hal]
    · rw [getD_set_ne' slaves addr i _ initialSlave (by omega), hinit i (by omega) h2]
      rfl
  · have hm : min (addr + 1) 8 - addr = 1 := by omega
    rw [hm]
    rfl
  · rw [Nat.sub_self, if_pos haddr]
    rfl
  · intro u hu
    exact absurd hu (List.not_mem_nil u)
  · intro i h1 h2
    exact ((lt_irrefl addr (h1.trans_lt h2)).elim)
  · rw [Nat.sub_self]
    rfl

theorem routingSucc_post (addr : Nat) (slaves : List Slave) (newSlave : Slave)
    (reg : List Nat) (trace : List SlaveStatus) (rest : DiscoveryResult)
    (haddr : addr < 8) (hlen : slaves.length = 8)
    (hstatus : newSlave.status ≠ SlaveStatus.absent)
    (hnum : newSlave.uids_num ≤ 16) (hulen : newSlave.uids.length = 16)
    (hreg : newSlave.uids.take newSlave.uids_num = reg)
    (hregne : ∀ u ∈ reg, u ≠ 0)
    (htrace : ∀ x ∈ trace, x ≠ SlaveStatus.absent)
    (hrest : RoutingPost (addr + 1)
      ((slaves.set addr
          { slaves.getD addr initialSlave with status := SlaveStatus.available }).set
        addr newSlave) rest) :
    RoutingPost addr slaves
      { slaves := rest.slaves, slave_num := rest.slave_num,
        probed := addr :: rest.probed, outcomes := true :: rest.outcomes,
        registered := reg ++ rest.registered,
        callStatuses := trace ++ rest.callStatuses } := by
  rw [RoutingPost]
  dsimp only
  rw [List.set_set] at hrest
  obtain ⟨⟨hr1a, hr1b⟩, hr2, hr3, hr4, hr5, hr6, hr7, hr8, hr9, hr10, hr11⟩ := hrest
  have hal : addr < slaves.length := by omega
  have hslaves2 : ((slaves.set addr newSlave).getD addr initialSlave) = newSlave :=
    getD_set_self_of_lt slaves addr newSlave initialSlave hal
  have hgetaddr : rest.slaves.getD addr initialSlave = newSlave := by
    rw [hr3 addr (by omega), hslaves2]
  refine ⟨⟨by omega, hr1b⟩, hr2, ?_, ?_, hr5, ?_, ?_, ?_, ?_, ?_, ?_⟩
  · intro i hi
    rw [hr3 i (by omega), getD_set_ne' slaves addr i newSlave initialSlave (by omega)]
  · intro i h1 h2
    rcases Nat.eq_or_lt_of_le h1 with rfl | hlt
    · rw [hgetaddr]
      exact status_ne_absent_cases newSlave.status hstatus
    · exact hr4 i (by omega) h2
  · have hmin : addr + 1 ≤ min (rest.slave_num + 1) 8 := by omega
    rw [show min (rest.slave_num + 1) 8 - addr =
      (min (rest.slave_num + 1) 8 - (addr + 1)) + 1 from by omega,
      List.range'_succ, hr6]
  · rw [show rest.slave_num - addr = (rest.slave_num - (addr + 1)) + 1 from by omega,
      List.replicate_succ, List.cons_append, hr7]
  · intro x hx
    rcases List.mem_append.mp hx with hx | hx
    · exact htrace x hx
    · exact hr8 x hx
  · intro u hu
    rcases List.mem_append.mp hu with hu | hu
    · exact hregne u hu
    · exact hr9 u hu
  · intro i h1 h2
    rcases Nat.eq_or_lt_of_le h1 with rfl | hlt
    · rw [hgetaddr]
      exact ⟨hnum, hulen⟩
    · exact hr10 i (by omega) h2
  · rw [show rest.slave_num - addr = (rest.slave_num - (addr + 1)) + 1 from by omega,
      List.range'_succ, List.map_cons, List.flatten_cons, hgetaddr, hreg, hr11]

theorem routingLoop_spec (env : Nat → SpiIn) :
    ∀ (fuel addr : Nat) (slaves : List Slave) (buf : List Nat) (cnt : Nat),
      addr + fuel = 8 → slaves.length = 8 →
      (∀ i, addr ≤ i → i < 8 → slaves.getD i initialSlave = initialSlave) →
      RoutingPost addr slaves (routingLoop env fuel addr slaves buf cnt) := by
  intro fuel
  induction fuel with
  | zero =>
      intro addr slaves buf cnt hfa hlen hinit
      have haddr : addr = 8 := by omega
      subst haddr
      exact ⟨⟨le_refl 8, le_refl 8⟩, hlen, fun i _ => rfl,
        fun i h1 h2 => ((lt_irrefl 8 (h1.trans_lt h2)).elim),
        fun i h1 h2 => ((lt_irrefl 8 (h1.trans_lt h2)).elim),
        rfl, rfl,
        fun x hx => absurd hx (List.not_mem_nil x),
        fun u hu => absurd hu (List.not_mem_nil u),
        fun i h1 h2 => ((lt_irrefl 8 (h1.trans_lt h2)).elim), rfl⟩
  | succ k ih =>
      intro addr slaves buf cnt hfa hlen hinit
      have haddr : addr < 8 := by omega
      have hs0 : slaves.getD addr initialSlave = initialSlave :=
        hinit addr (le_refl addr) haddr
      simp only [routingLoop]
      have hsend := phaseLoop_ne_absent env (some stackEnumerateRequest)
        RED_STACK_TRANSCEIVE_DATA_SEND RED_STACK_SPI_ROUTING_TRIES
        SlaveStatus.available buf cnt (by intro h; cases h)
      set s1 := phaseLoop env (some stackEnumerateRequest)
        RED_STACK_TRANSCEIVE_DATA_SEND RED_STACK_SPI_ROUTING_TRIES
        SlaveStatus.available buf cnt with hs1
      split
      · -- send phase succeeded
        have hrecv := phaseLoop_ne_absent env none
          RED_STACK_TRANSCEIVE_DATA_RECEIVED RED_STACK_SPI_ROUTING_TRIES
          s1.status s1.buf s1.cnt hsend.1
        set s2 := phaseLoop env none RED_STACK_TRANSCEIVE_DATA_RECEIVED
          RED_STACK_SPI_ROUTING_TRIES s1.status s1.buf s1.cnt with hs2
        split
        · -- receive phase succeeded
          have hcu := copyUids_spec s2.buf (slaves.getD addr initialSlave).uids
            (by rw [hs0]; rfl)
          set cu := copyUids s2.buf (slaves.getD addr initialSlave).uids with hcud
          have hrest := ih (addr + 1)
            ((slaves.set addr
                { slaves.getD addr initialSlave with
                  status := SlaveStatus.available }).set addr
              ⟨s2.status, cu.uids, cu.num⟩) s2.buf s2.cnt
            (by omega) (by simp [hlen]) ?_
          · exact routingSucc_post addr slaves ⟨s2.status, cu.uids, cu.num⟩
              cu.reg (s1.trace ++ s2.trace) _ haddr hlen hrecv.1
              hcu.1 hcu.2.1 hcu.2.2.2 hcu.2.2.1
              (by
                intro x hx
                rcases List.mem_append.mp hx with hx | hx
                · exact hsend.2 x hx
                · exact hrecv.2 x hx) hrest
          · intro i h1 h2
            rw [List.set_set, getD_set_ne' slaves addr i _ initialSlave (by omega)]
            exact hinit i (by omega) h2
        · -- receive phase exhausted its tries
          refine routingFail_post addr slaves _ haddr hlen hinit ?_
          intro x hx
          rcases List.mem_append.mp hx with hx | hx
          · exact hsend.2 x hx
          · exact hrecv.2 x hx
      · -- send phase exhausted its tries
        exact routingFail_post addr slaves _ haddr hlen hinit hsend.2


theorem getD_replicate_self {α : Type} (n i : Nat) (a : α) :
    (List.replicate n a).getD i a = a := by
  rw [List.getD_eq_getElem?_getD, List.getElem?_replicate]
  split <;> rfl

/-- The discovery post-condition for the whole table (entry at slot 0). -/
theorem create_routing_table_spec (env : Nat → SpiIn) (buf0 : List Nat) :
    RoutingPost 0 (List.replicate 8 initialSlave)
      (red_stack_spi_create_routing_table env buf0) :=
  routingLoop_spec env 8 0 (List.replicate 8 initialSlave) buf0 0 rfl (by simp)
    (fun i _ _ => getD_replicate_self 8 i initialSlave)

/-!  ## C5: discovery post-condition  -/

/-- C5: after discovery, `slave_num` is at most 8; every slot below
`slave_num` is AVAILABLE or AVAILABLE_BUSY and every slot from `slave_num`
to 7 is ABSENT; the probed slots are exactly 0..slave_num (the failing
slot included) and never any higher slot; and the per-slot outcomes are
`slave_num` successes followed by one failure exactly when `slave_num` <
8 — i.e. `slave_num` is the index of the first slot whose send or receive
phase exhausted its 10 attempts, or 8 when none did. -/
theorem claim_C5 (env : Nat → SpiIn) (buf0 : List Nat) :
    (red_stack_spi_create_routing_table env buf0).slave_num ≤ 8 ∧
    (∀ i, i < (red_stack_spi_create_routing_table env buf0).slave_num →
      (((red_stack_spi_create_routing_table env buf0).slaves.getD i
          initialSlave).status = SlaveStatus.available ∨
       ((red_stack_spi_create_routing_table env buf0).slaves.getD i
          initialSlave).status = SlaveStatus.availableBusy)) ∧
    (∀ i, (red_stack_spi_create_routing_table env buf0).slave_num ≤ i → i < 8 →
      ((red_stack_spi_create_routing_table env buf0).slaves.getD i
        initialSlave).status = SlaveStatus.absent) ∧
    (red_stack_spi_create_routing_table env buf0).probed =
      List.range (min ((red_stack_spi_create_routing_table env buf0).slave_num + 1) 8) ∧
    (red_stack_spi_create_routing_table env buf0).outcomes =
      List.replicate (red_stack_spi_create_routing_table env buf0).slave_num true ++
        (if (red_stack_spi_create_routing_table env buf0).slave_num < 8 then
          [false] else []) := by
  obtain ⟨⟨_, h1b⟩, _, _, h4, h5, h6, h7, _, _, _, _⟩ :=
    create_routing_table_spec env buf0
  refine ⟨h1b, fun i hi => h4 i (Nat.zero_le i) hi, h5, ?_, ?_⟩
  · rw [h6, List.range_eq_range', Nat.sub_zero]
  · rw [h7, Nat.sub_zero]

/-- C5, witness: on the concrete environment where slot 0 answers and
slot 1 stays silent, discovery finds slave_num = 1 and slot 5 (above the
failing slot) is ABSENT. -/
theorem claim_C5_witness :
    ((red_stack_spi_create_routing_table env0 zeros80).slaves.getD 5
      initialSlave).status = SlaveStatus.absent :=
  (claim_C5 env0 zeros80).2.2.1 5 (by decide) (by decide)

/-!  ## C6: registered UIDs and UID lookup  -/

theorem slaveHasUid_iff (s : Slave) (u : Nat) :
    slaveHasUid s u = true ↔ u ∈ s.uids.take s.uids_num := by
  simp [slaveHasUid, List.contains_eq_any_beq, List.any_eq_true]

/-- A successful UID scan returns the first matching slot at or after the
scan start, and only slots below `slave_num`. -/
theorem findSlaveFrom_spec (slaves : List Slave) (slave_num uid : Nat) :
    ∀ (fuel is j : Nat),
      findSlaveFrom slaves slave_num uid fuel is = some j →
      is ≤ j ∧ j < slave_num ∧
      slaveHasUid (slaves.getD j initialSlave) uid = true ∧
      ∀ k, is ≤ k → k < j → slaveHasUid (slaves.getD k initialSlave) uid = false := by
  intro fuel
  induction fuel with
  | zero =>
      intro is j h
      cases h
  | succ f ih =>
      intro is j h
      rw [findSlaveFrom] at h
      by_cases h1 : is < slave_num
      · rw [if_pos h1] at h
        by_cases h2 : slaveHasUid (slaves.getD is initialSlave) uid = true
        · rw [if_pos h2] at h
          cases h
          exact ⟨le_refl is, h1, h2, fun k hk1 hk2 => absurd hk2 (by omega)⟩
        · rw [if_neg h2] at h
          obtain ⟨ha, hb, hc, hd⟩ := ih (is + 1) j h
          refine ⟨by omega, hb, hc, ?_⟩
          intro k hk1 hk2
          rcases Nat.eq_or_lt_of_le hk1 with rfl | hk
          · exact Bool.eq_false_iff.mpr h2
          · exact hd k (by omega) hk2
      · rw [if_neg h1] at h
        cases h

/-- If some slot in range holds the UID, the scan finds a slot. -/
theorem findSlaveFrom_found (slaves : List Slave) (slave_num uid : Nat) :
    ∀ (fuel is i : Nat), is ≤ i → i < slave_num → i < is + fuel →
      slaveHasUid (slaves.getD i initialSlave) uid = true →
      ∃ j, findSlaveFrom slaves slave_num uid fuel is = some j := by
  intro fuel
  induction fuel with
  | zero =>
      intro is i h1 h2 h3 h4
      omega
  | succ f ih =>
      intro is i h1 h2 h3 h4
      rw [findSlaveFrom]
      rw [if_pos (by omega)]
      by_cases h5 : slaveHasUid (slaves.getD is initialSlave) uid = true
      · rw [if_pos h5]
        exact ⟨is, rfl⟩
      · rw [if_neg h5]
        have hne : is ≠ i := by
          intro hh
          exact h5 (hh ▸ h4)
        exact ih (is + 1) i (by omega) h2 (by omega) h4

/-- C6: every UID registered during discovery is non-zero; each slave
holds at most 16 UIDs, uids_num of them; the registered UIDs are
exactly the per-slave held prefixes in slot order; and for every
registered UID the lookup returns the first present slave (in slot index
order) whose UIDs contain it. -/
theorem claim_C6 (env : Nat → SpiIn) (buf0 : List Nat) :
    (∀ u ∈ (red_stack_spi_create_routing_table env buf0).registered, u ≠ 0) ∧
    (∀ i, i < (red_stack_spi_create_routing_table env buf0).slave_num →
      ((red_stack_spi_create_routing_table env buf0).slaves.getD i
        initialSlave).uids_num ≤ 16) ∧
    (red_stack_spi_create_routing_table env buf0).registered =
      ((List.range (red_stack_spi_create_routing_table env buf0).slave_num).map
        (fun i => ((red_stack_spi_create_routing_table env buf0).slaves.getD i
            initialSlave).uids.take
          ((red_stack_spi_create_routing_table env buf0).slaves.getD i
            initialSlave).uids_num)).flatten ∧
    (∀ u ∈ (red_stack_spi_create_routing_table env buf0).registered,
      ∃ j, red_stack_spi_get_slave_for_uid
          (red_stack_spi_create_routing_table env buf0).slaves
          (red_stack_spi_create_routing_table env buf0).slave_num u = some j ∧
        j < (red_stack_spi_create_routing_table env buf0).slave_num ∧
        slaveHasUid ((red_stack_spi_create_routing_table env buf0).slaves.getD j
          initialSlave) u = true ∧
        ∀ k, k < j →
          slaveHasUid ((red_stack_spi_create_routing_table env buf0).slaves.getD k
            initialSlave) u = false) := by
  obtain ⟨_, _, _, _, _, _, _, _, h9, h10, h11⟩ :=
    create_routing_table_spec env buf0
  have hreg : (red_stack_spi_create_routing_table env buf0).registered =
      ((List.range (red_stack_spi_create_routing_table env buf0).slave_num).map
        (fun i => ((red_stack_spi_create_routing_table env buf0).slaves.getD i
            initialSlave).uids.take
          ((red_stack_spi_create_routing_table env buf0).slaves.getD i
            initialSlave).uids_num)).flatten := by
    rw [h11, List.range_eq_range', Nat.sub_zero]
  refine ⟨h9, fun i hi => (h10 i (Nat.zero_le i) hi).1, hreg, ?_⟩
  intro u hu
  rw [hreg] at hu
  obtain ⟨l, hl, hul⟩ := List.mem_flatten.mp hu
  obtain ⟨i, hir, hfi⟩ := List.mem_map.mp hl
  have hilt : i < (red_stack_spi_create_routing_table env buf0).slave_num :=
    List.mem_range.mp hir
  have hhas : slaveHasUid
      ((red_stack_spi_create_routing_table env buf0).slaves.getD i
        initialSlave) u = true := by
    rw [slaveHasUid_iff, hfi]
    exact hul
  obtain ⟨j, hj⟩ := findSlaveFrom_found
    (red_stack_spi_create_routing_table env buf0).slaves
    (red_stack_spi_create_routing_table env buf0).slave_num u
    (red_stack_spi_create_routing_table env buf0).slave_num 0 i
    (Nat.zero_le i) hilt (by omega) hhas
  obtain ⟨_, hb, hc, hd⟩ := findSlaveFrom_spec _ _ _ _ _ _ hj
  exact ⟨j, hj, hb, hc, fun k hk => hd k (Nat.zero_le k) hk⟩

set_option maxRecDepth 8000 in
/-- C6, witness: on the concrete environment whose enumerate response
carries the single UID 1, that UID is registered and non-zero. -/
theorem claim_C6_witness :
    ((1 : Nat) ∈ (red_stack_spi_create_routing_table env1 zeros80).registered) ∧
    (1 : Nat) ≠ 0 :=
  ⟨by decide, (claim_C6 env1 zeros80).1 1 (by decide)⟩


theorem mem_of_head? {α : Type} (l : List α) (a : α) (h : l.head? = some a) :
    a ∈ l := by
  cases l
  · cases h
  · cases h
    exact List.mem_cons_self _ _

/-- One tick changes the state as follows: `slave_num` is unchanged, the
target slave's status is updated with the transceive result, the queue is
kept or popped by one, and the cursor is kept or advanced modulo
`slave_num`. -/
theorem tick_components (s : PollState) (io : SpiIn) :
    (red_stack_spi_thread_tick s io).1.slave_num = s.slave_num ∧
    (red_stack_spi_thread_tick s io).1.slaves =
      s.slaves.set (tickTarget s)
        { s.slaves.getD (tickTarget s) initialSlave with
          status := (red_stack_spi_transceive_message
            ((s.queue.head?).map (fun q => q.2)) (List.replicate 80 0)
            (s.slaves.getD (tickTarget s) initialSlave).status io).status } ∧
    ((red_stack_spi_thread_tick s io).1.queue = s.queue ∨
     (red_stack_spi_thread_tick s io).1.queue = s.queue.tail) ∧
    ((red_stack_spi_thread_tick s io).1.cursor = s.cursor ∨
     (red_stack_spi_thread_tick s io).1.cursor =
       (if s.slave_num ≤ s.cursor + 1 then 0 else s.cursor + 1)) := by
  cases hq : s.queue.head? with
  | none =>
      refine ⟨?_, ?_, ?_, Or.inr ?_⟩ <;>
        simp only [red_stack_spi_thread_tick, tickTarget, hq, Option.map_none']
      split
      · exact Or.inr rfl
      · exact Or.inl rfl
  | some q =>
      obtain ⟨si, p⟩ := q
      refine ⟨?_, ?_, ?_, Or.inl ?_⟩ <;>
        simp only [red_stack_spi_thread_tick, tickTarget, hq, Option.map_some']
      split
      · exact Or.inr rfl
      · exact Or.inl rfl

/-- Invariant of the polling engine: the present slaves form a non-empty
prefix of at most 8 slots, none of them ABSENT; the cursor stays inside
the prefix; and every queued work item targets a present slave. -/
def PollInv (s : PollState) : Prop :=
  s.slave_num ≤ 8 ∧ s.slaves.length = 8 ∧ 0 < s.slave_num ∧
  s.cursor < s.slave_num ∧
  (∀ i, i < s.slave_num →
    (s.slaves.getD i initialSlave).status ≠ SlaveStatus.absent) ∧
  (∀ q ∈ s.queue, q.1 < s.slave_num)

theorem tickTarget_lt (s : PollState) (h : PollInv s) :
    tickTarget s < s.slave_num := by
  obtain ⟨_, _, _, i4, _, i6⟩ := h
  unfold tickTarget
  cases hq : s.queue.head? with
  | none => exact i4
  | some q => exact i6 q (mem_of_head? s.queue q hq)

theorem reachable_PollInv (s : PollState) (h : Reachable s) : PollInv s := by
  induction h with
  | init env buf0 hne =>
      obtain ⟨⟨_, h1b⟩, h2, _, h4, _, _, _, _, _, _, _⟩ :=
        create_routing_table_spec env buf0
      refine ⟨h1b, h2, Nat.pos_of_ne_zero hne, Nat.pos_of_ne_zero hne, ?_, ?_⟩
      · intro i hi
        show ((red_stack_spi_create_routing_table env buf0).slaves.getD i
          initialSlave).status ≠ SlaveStatus.absent
        rcases h4 i (Nat.zero_le i) hi with hs | hs <;> rw [hs] <;>
          intro hc <;> cases hc
      · intro q hq
        exact absurd hq (List.not_mem_nil q)
  | tick s io hr ih =>
      obtain ⟨i1, i2, i3, i4, i5, i6⟩ := ih
      obtain ⟨t1, t2, t3, t4⟩ := tick_components s io
      have htarget : tickTarget s < s.slave_num := tickTarget_lt s ⟨i1, i2, i3, i4, i5, i6⟩
      have htl : tickTarget s < s.slaves.length := by omega
      refine ⟨by rw [t1]; exact i1, by rw [t2]; simp [i2], by rw [t1]; exact i3,
        ?_, ?_, ?_⟩
      · rcases t4 with hc | hc <;> rw [hc, t1]
        · exact i4
        · split
          · exact i3
          · omega
      · intro i hi
        rw [t1] at hi
        rw [t2]
        by_cases he : i = tickTarget s
        · subst he
          rw [getD_set_self_of_lt _ _ _ _ htl]
          exact transceive_status_ne_absent _ _ _ _ (i5 _ htarget)
        · rw [getD_set_ne' _ _ _ _ _ (fun hh => he hh.symm)]
          exact i5 i hi
      · intro q hq
        rw [t1]
        rcases t3 with hc | hc <;> rw [hc] at hq
        · exact i6 q hq
        · exact i6 q (List.mem_of_mem_tail hq)
  | dispatch s request hr ih =>
      obtain ⟨i1, i2, i3, i4, i5, i6⟩ := ih
      refine ⟨i1, i2, i3, i4, i5, ?_⟩
      intro q hq
      simp only at hq
      rw [red_stack_dispatch_to_spi] at hq
      by_cases h0 : headerUid request = 0
      · rw [if_pos h0] at hq
        rcases List.mem_append.mp hq with hq | hq
        · exact i6 q hq
        · obtain ⟨a, ha, hfa⟩ := List.mem_map.mp hq
          rw [← hfa]
          exact List.mem_range.mp ha
      · rw [if_neg h0] at hq
        cases hfind : red_stack_spi_get_slave_for_uid s.slaves s.slave_num
          (headerUid request) with
        | none =>
            rw [hfind] at hq
            exact i6 q hq
        | some is =>
            rw [hfind] at hq
            rcases List.mem_append.mp hq with hq | hq
            · exact i6 q hq
            · rcases List.mem_singleton.mp hq with rfl
              exact (findSlaveFrom_spec _ _ _ _ _ _ hfind).2.1

/-- C9: an ABSENT slave is never selected.  During discovery every
transceive call happens on a slave whose status at call time is AVAILABLE
or AVAILABLE_BUSY; and in every state the polling engine can reach (after
a discovery that found at least one slave, via any interleaving of ticks
and event-thread enqueues) the slave the next tick exchanges with is
AVAILABLE or AVAILABLE_BUSY. -/
theorem claim_C9 :
    (∀ (env : Nat → SpiIn) (buf0 : List Nat) (st : SlaveStatus),
      st ∈ (red_stack_spi_create_routing_table env buf0).callStatuses →
      (st = SlaveStatus.available ∨ st = SlaveStatus.availableBusy)) ∧
    (∀ s, Reachable s →
      ((s.slaves.getD (tickTarget s) initialSlave).status =
          SlaveStatus.available ∨
       (s.slaves.getD (tickTarget s) initialSlave).status =
          SlaveStatus.availableBusy)) := by
  constructor
  · intro env buf0 st hst
    obtain ⟨_, _, _, _, _, _, _, h8, _, _, _⟩ := create_routing_table_spec env buf0
    exact status_ne_absent_cases st (h8 st hst)
  · intro s hs
    have hinv := reachable_PollInv s hs
    have htarget := tickTarget_lt s hinv
    exact status_ne_absent_cases _ (hinv.2.2.2.2.1 (tickTarget s) htarget)

/-- C9, witness: the AVAILABLE status recorded in the discovery call trace
on the concrete environment, and the initial polling state it produces,
whose tick target (slot 0) is AVAILABLE. -/
theorem claim_C9_witness :
    (SlaveStatus.available = SlaveStatus.available ∨
     SlaveStatus.available = SlaveStatus.availableBusy) ∧
    (((initPollState (red_stack_spi_create_routing_table env0 zeros80)).slaves.getD
        (tickTarget (initPollState (red_stack_spi_create_routing_table env0 zeros80)))
        initialSlave).status = SlaveStatus.available ∨
     ((initPollState (red_stack_spi_create_routing_table env0 zeros80)).slaves.getD
        (tickTarget (initPollState (red_stack_spi_create_routing_table env0 zeros80)))
        initialSlave).status = SlaveStatus.availableBusy) :=
  ⟨claim_C9.1 env0 zeros80 SlaveStatus.available (by decide),
   claim_C9.2 _ (Reachable.init env0 zeros80 (by decide))⟩

end RedStack
